import Mathlib

/-!
# Task pipeline: producer API and consumer worker

A shallow embedding of the two Go programs of the repository,

* `app/api-service/cmd/api/main.go` (namespace `Api`): `createTaskHandler`
  and `getTaskHandler`;
* `app/worker-service/cmd/worker/main.go` (namespace `Worker`):
  `processNextTask`, `processTaskPayload` and `updateTask`;

together with the Redis commands they issue (`Set`, `Get`, `LPush`, `RPop`,
`LLen`) over one shared key space.

Modelling conventions.

* A Redis string value is kept as the JSON document `encoding/json` sees in it
  (`Doc`); the byte-level lexer of the library is not modelled, a value that is
  not JSON text is `Doc.invalid`.
* `time.Time` is a number of nanoseconds; its RFC 3339 rendering and parsing
  belong to Go's `time` package and are taken as a parameter (`TimeCodec`).
* `uuid.New()` and `time.Now()` in the producer are inputs of the handler; the
  worker carries a clock that `time.Sleep` advances.
* A Redis command may fail for a reason outside the key space (connection
  refused, timeout): `Conn.outages` schedules such failures, one flag per
  command issued, an exhausted schedule meaning a reachable store.  A command
  that fails leaves the key space as it was.  `Conn.sent` records every command
  issued, in order.
* The 24 hour expiry passed to `Set` is not modelled: states are taken within
  the expiry window of their records.
-/

/-! ## JSON documents -/

/-- A JSON value as far as decoding into a struct of string and time fields
can tell values apart; `other` stands for arrays, nested objects and numbers
that are not integers. -/
inductive JVal where
  | null
  | bool (b : Bool)
  | num (n : Int)
  | str (s : String)
  | other
  deriving DecidableEq, Repr

/-- The text of a Redis string value or of a request body, as `encoding/json`
parses it: not JSON at all, a JSON value that is not an object, or an object
with its members in textual order (duplicates kept). -/
inductive Doc where
  | invalid
  | value (v : JVal)
  | object (fields : List (String × JVal))
  deriving DecidableEq, Repr

/-- Rendering and parsing of `time.Time` as the JSON string that
`Time.MarshalJSON` and `Time.UnmarshalJSON` use (RFC 3339). -/
structure TimeCodec where
  format : Nat → String
  parse : String → Option Nat

/-- A codec is lawful when parsing a rendered instant gives the instant back. -/
def TimeCodec.Lawful (tc : TimeCodec) : Prop :=
  ∀ t : Nat, tc.parse (tc.format t) = some t

/-- The decimal digits of `n`, least significant first; `fuel` bounds their
number. -/
def digitsOf : Nat → Nat → List Char
  | 0, _ => []
  | fuel + 1, n =>
    Char.ofNat (48 + n % 10) :: (if n / 10 = 0 then [] else digitsOf fuel (n / 10))

/-- The number whose decimal digits, least significant first, are `cs`. -/
def valueOf : List Char → Option Nat
  | [] => some 0
  | c :: cs => if c.isDigit then (valueOf cs).map (fun v => (c.toNat - 48) + 10 * v) else none

/-- A concrete codec: an instant is rendered as its decimal digits, least
significant first. -/
def digitCodec : TimeCodec where
  format := fun t => String.mk (digitsOf (t + 1) t)
  parse := fun s => valueOf s.data

/-- Case folding of one character of an object key: ASCII letters go to lower
case, and the two characters outside ASCII that fold to an ASCII letter, the
long s (U+017F) and the Kelvin sign (U+212A), go to `s` and `k`. -/
def foldChar (c : Char) : Char :=
  if c.toNat = 0x17F then Char.ofNat 0x73
  else if c.toNat = 0x212A then Char.ofNat 0x6B
  else c.toLower

/-- Case folding of an object key. -/
def foldKey (s : String) : List Char :=
  s.data.map foldChar

/-- Whether the object key `key` selects the struct field tagged `name`:
`encoding/json` prefers an exact match and accepts a case-insensitive one. -/
def keyMatches (name key : String) : Bool :=
  key == name || foldKey key == foldKey name

/-- Decoding a JSON value into a Go `string` field holding `old`: a string is
stored, `null` leaves the field alone, anything else is a type error. -/
def assignString (v : JVal) (old : String) : Option String :=
  match v with
  | .str s => some s
  | .null => some old
  | _ => none

/-- Decoding a JSON value into a `time.Time` field holding `old`
(`Time.UnmarshalJSON`): `null` is a no-op, a string must parse, anything else
is an error. -/
def assignTime (tc : TimeCodec) (v : JVal) (old : Nat) : Option Nat :=
  match v with
  | .str s => tc.parse s
  | .null => some old
  | _ => none

/-- The value of the last member of an object document whose key is `name`. -/
def Doc.field? (d : Doc) (name : String) : Option JVal :=
  match d with
  | .object fs => (fs.reverse.find? (fun kv => kv.1 == name)).map (fun kv => kv.2)
  | _ => none

/-! ## Redis -/

/-- A value in the Redis key space: a string (holding a document) or a
non-empty list of strings, leftmost element first. -/
inductive RVal where
  | string (d : Doc)
  | list (xs : List String)
  deriving DecidableEq, Repr

/-- The commands the two programs issue. -/
inductive Cmd where
  | set (key : String) (d : Doc)
  | get (key : String)
  | lpush (key : String) (v : String)
  | rpop (key : String)
  | llen (key : String)
  deriving DecidableEq, Repr

/-- The error of a failed command: `redis.Nil` or any other error. -/
inductive RedisErr where
  | nil
  | other
  deriving DecidableEq, Repr

/-- The Redis client: the key space it talks to, the schedule of connection
failures, and the commands issued so far. -/
structure Conn where
  db : String → Option RVal
  outages : List Bool
  sent : List Cmd

/-- Issue a command: record it and consume one flag of the outage schedule.
The flag returned says whether the command reached the server. -/
def Conn.issue (c : Conn) (cmd : Cmd) : Bool × Conn :=
  match c.outages with
  | [] => (true, { c with sent := c.sent ++ [cmd] })
  | down :: rest => (!down, { c with outages := rest, sent := c.sent ++ [cmd] })

/-- Whether the command issued `k` commands from now reaches the server under
the outage schedule `outs`. -/
def served : List Bool → Nat → Bool
  | [], _ => true
  | down :: _, 0 => !down
  | _ :: rest, k + 1 => served rest k

/-- The key space with `key` bound to `v`. -/
def setKey (db : String → Option RVal) (key : String) (v : Option RVal) : String → Option RVal :=
  fun k => if k = key then v else db k

/-- The command `SET key value`: overwrites whatever the key held. -/
def Conn.Set (c : Conn) (key : String) (d : Doc) : Except RedisErr Unit × Conn :=
  let (up, c1) := c.issue (.set key d)
  if up then (.ok (), { c1 with db := setKey c1.db key (some (.string d)) })
  else (.error .other, c1)

/-- The command `GET key`: `redis.Nil` for a missing key, an error for a key of the wrong
type. -/
def Conn.Get (c : Conn) (key : String) : Except RedisErr Doc × Conn :=
  let (up, c1) := c.issue (.get key)
  if up then
    match c1.db key with
    | none => (.error .nil, c1)
    | some (.string d) => (.ok d, c1)
    | some (.list _) => (.error .other, c1)
  else (.error .other, c1)

/-- The command `LPUSH key v`: prepends to the list, creating it when the key is missing. -/
def Conn.LPush (c : Conn) (key : String) (v : String) : Except RedisErr Unit × Conn :=
  let (up, c1) := c.issue (.lpush key v)
  if up then
    match c1.db key with
    | none => (.ok (), { c1 with db := setKey c1.db key (some (.list [v])) })
    | some (.list xs) => (.ok (), { c1 with db := setKey c1.db key (some (.list (v :: xs))) })
    | some (.string _) => (.error .other, c1)
  else (.error .other, c1)

/-- The command `RPOP key`: removes and returns the last element; the key disappears with
its last element; `redis.Nil` for a missing key. -/
def Conn.RPop (c : Conn) (key : String) : Except RedisErr String × Conn :=
  let (up, c1) := c.issue (.rpop key)
  if up then
    match c1.db key with
    | none => (.error .nil, c1)
    | some (.list xs) =>
      match xs.getLast? with
      | none => (.error .nil, { c1 with db := setKey c1.db key none })
      | some x =>
        let left := if xs.dropLast = [] then none else some (RVal.list xs.dropLast)
        (.ok x, { c1 with db := setKey c1.db key left })
    | some (.string _) => (.error .other, c1)
  else (.error .other, c1)

/-- The command `LLEN key`: the length of the list, `0` for a missing key. -/
def Conn.LLen (c : Conn) (key : String) : Except RedisErr Nat × Conn :=
  let (up, c1) := c.issue (.llen key)
  if up then
    match c1.db key with
    | none => (.ok 0, c1)
    | some (.list xs) => (.ok xs.length, c1)
    | some (.string _) => (.error .other, c1)
  else (.error .other, c1)

/-- The IDs waiting in the list `task:queue`, leftmost (most recently pushed)
first. -/
def queueOf (db : String → Option RVal) : List String :=
  match db "task:queue" with
  | some (.list xs) => xs
  | _ => []

/-! ## The worker (`app/worker-service/cmd/worker/main.go`) -/

namespace Worker

/-- The worker's `Task` struct; its JSON tags are `id`, `payload`, `status`,
`created_at` and `updated_at`. -/
structure Task where
  ID : String
  Payload : String
  Status : String
  CreatedAt : Nat
  UpdatedAt : Nat
  deriving DecidableEq, Repr

/-- The zero value of `Task` (`var task Task`). -/
def Task.zero : Task :=
  { ID := "", Payload := "", Status := "", CreatedAt := 0, UpdatedAt := 0 }

/-- The `json.Marshal` of a `Task`: one member per field, in declaration
order. -/
def Task.marshal (tc : TimeCodec) (t : Task) : Doc :=
  .object [("id", .str t.ID), ("payload", .str t.Payload), ("status", .str t.Status),
    ("created_at", .str (tc.format t.CreatedAt)), ("updated_at", .str (tc.format t.UpdatedAt))]

/-- Decode one object member into the task; members with unknown keys are
skipped. -/
def Task.setField (tc : TimeCodec) (t : Task) (kv : String × JVal) : Option Task :=
  if keyMatches "id" kv.1 then (assignString kv.2 t.ID).map (fun s => { t with ID := s })
  else if keyMatches "payload" kv.1 then
    (assignString kv.2 t.Payload).map (fun s => { t with Payload := s })
  else if keyMatches "status" kv.1 then
    (assignString kv.2 t.Status).map (fun s => { t with Status := s })
  else if keyMatches "created_at" kv.1 then
    (assignTime tc kv.2 t.CreatedAt).map (fun n => { t with CreatedAt := n })
  else if keyMatches "updated_at" kv.1 then
    (assignTime tc kv.2 t.UpdatedAt).map (fun n => { t with UpdatedAt := n })
  else some t

/-- The `json.Unmarshal` into a zero `Task`: `none` is any error.  A top-level
`null` decodes to the zero task; any other non-object value is a type error. -/
def Task.unmarshal (tc : TimeCodec) (d : Doc) : Option Task :=
  match d with
  | .invalid => none
  | .value .null => some Task.zero
  | .value _ => none
  | .object fs => fs.foldlM (Task.setField tc) Task.zero

/-- The `TaskError` type. -/
structure TaskError where
  Message : String
  deriving DecidableEq, Repr

/-- One constructor per `log.Printf` line of the worker. -/
inductive LogEvent where
  | popFailed
  | processing (taskID : String)
  | getFailed (taskID : String)
  | unmarshalFailed (taskID : String)
  | working (taskID : String) (processingTime : Nat)
  | taskFailed (taskID : String)
  | taskCompleted (taskID : String)
  deriving DecidableEq, Repr

/-- The process state of the worker: the Redis client, the clock, the
Prometheus collectors and the log. -/
structure State where
  conn : Conn
  clock : Nat
  tasksProcessed : Nat
  tasksFailed : Nat
  queueLength : Nat
  taskProcessingDuration : List Nat
  logs : List LogEvent

/-- The `time.Second` duration, in nanoseconds. -/
def second : Nat := 1000000000

/-- The `updateTask` function: marshal the task and `Set` it under
`task:<task.ID>`; the reply of `Set` is discarded. -/
def updateTask (tc : TimeCodec) (w : State) (task : Task) : State :=
  { w with conn := (w.conn.Set ("task:" ++ task.ID) (task.marshal tc)).2 }

/-- The duration `processTaskPayload` sleeps for. -/
def processingTime (task : Task) : Nat :=
  (2 + task.Payload.utf8ByteSize % 5) * second

/-- The `processTaskPayload` function: log, sleep for `processingTime`, and
fail when the payload length is a multiple of ten. -/
def processTaskPayload (w : State) (task : Task) : Option TaskError × State :=
  let w1 := { w with logs := w.logs ++ [LogEvent.working task.ID (processingTime task)] }
  let w2 := { w1 with clock := w1.clock + processingTime task }
  if task.Payload.utf8ByteSize % 10 = 0 then
    (some { Message := "simulated processing failure" }, w2)
  else
    (none, w2)

/-- The `processNextTask` function, one tick of the worker. -/
def processNextTask (tc : TimeCodec) (w : State) : State :=
  -- Update queue length metric
  let (queueLen, c1) := w.conn.LLen "task:queue"
  let w1 := { w with conn := c1,
                     queueLength := match queueLen with | .ok n => n | .error _ => 0 }
  -- Pop task from queue
  match w1.conn.RPop "task:queue" with
  | (.error .nil, c2) => { w1 with conn := c2 }
  | (.error .other, c2) => { w1 with conn := c2, logs := w1.logs ++ [LogEvent.popFailed] }
  | (.ok taskID, c2) =>
    let w2 := { w1 with conn := c2, logs := w1.logs ++ [LogEvent.processing taskID] }
    let start := w2.clock
    -- Get task details
    match w2.conn.Get ("task:" ++ taskID) with
    | (.error _, c3) =>
      { w2 with conn := c3, logs := w2.logs ++ [LogEvent.getFailed taskID],
                tasksFailed := w2.tasksFailed + 1 }
    | (.ok taskJSON, c3) =>
      match Task.unmarshal tc taskJSON with
      | none =>
        { w2 with conn := c3, logs := w2.logs ++ [LogEvent.unmarshalFailed taskID],
                  tasksFailed := w2.tasksFailed + 1 }
      | some task0 =>
        let w3 := { w2 with conn := c3 }
        -- Update status to processing
        let task1 := { task0 with Status := "processing", UpdatedAt := w3.clock }
        let w4 := updateTask tc w3 task1
        -- Simulate actual work
        let (err, w5) := processTaskPayload w4 task1
        let (task2, w6) : Task × State :=
          match err with
          | some _ =>
            ({ task1 with Status := "failed" },
             { w5 with logs := w5.logs ++ [LogEvent.taskFailed taskID],
                       tasksFailed := w5.tasksFailed + 1 })
          | none =>
            ({ task1 with Status := "completed" },
             { w5 with logs := w5.logs ++ [LogEvent.taskCompleted taskID],
                       tasksProcessed := w5.tasksProcessed + 1 })
        let task3 := { task2 with UpdatedAt := w6.clock }
        let w7 := updateTask tc w6 task3
        { w7 with taskProcessingDuration := w7.taskProcessingDuration ++ [w7.clock - start] }

end Worker

/-! ## The API (`app/api-service/cmd/api/main.go`) -/

namespace Api

/-- The API's `Task` struct; its JSON tags are `id`, `payload`, `status` and
`created_at`. -/
structure Task where
  ID : String
  Payload : String
  Status : String
  CreatedAt : Nat
  deriving DecidableEq, Repr

/-- The zero value of `Task`. -/
def Task.zero : Task :=
  { ID := "", Payload := "", Status := "", CreatedAt := 0 }

/-- The `json.Marshal` of a `Task`. -/
def Task.marshal (tc : TimeCodec) (t : Task) : Doc :=
  .object [("id", .str t.ID), ("payload", .str t.Payload), ("status", .str t.Status),
    ("created_at", .str (tc.format t.CreatedAt))]

/-- Decode one object member into the task; members with unknown keys are
skipped. -/
def Task.setField (tc : TimeCodec) (t : Task) (kv : String × JVal) : Option Task :=
  if keyMatches "id" kv.1 then (assignString kv.2 t.ID).map (fun s => { t with ID := s })
  else if keyMatches "payload" kv.1 then
    (assignString kv.2 t.Payload).map (fun s => { t with Payload := s })
  else if keyMatches "status" kv.1 then
    (assignString kv.2 t.Status).map (fun s => { t with Status := s })
  else if keyMatches "created_at" kv.1 then
    (assignTime tc kv.2 t.CreatedAt).map (fun n => { t with CreatedAt := n })
  else some t

/-- The `json.Unmarshal` into a zero `Task`; `none` is any error. -/
def Task.unmarshal (tc : TimeCodec) (d : Doc) : Option Task :=
  match d with
  | .invalid => none
  | .value .null => some Task.zero
  | .value _ => none
  | .object fs => fs.foldlM (Task.setField tc) Task.zero

/-- The `CreateTaskRequest` struct, tag `payload`. -/
structure CreateTaskRequest where
  Payload : String
  deriving DecidableEq, Repr

/-- Decode one object member into the request. -/
def CreateTaskRequest.setField (r : CreateTaskRequest) (kv : String × JVal) :
    Option CreateTaskRequest :=
  if keyMatches "payload" kv.1 then
    (assignString kv.2 r.Payload).map (fun s => { r with Payload := s })
  else some r

/-- The `json.NewDecoder(r.Body).Decode(&req)` of a request body; `none` is any
error (an empty body included, which is `Doc.invalid`). -/
def CreateTaskRequest.decode (body : Doc) : Option CreateTaskRequest :=
  match body with
  | .invalid => none
  | .value .null => some { Payload := "" }
  | .value _ => none
  | .object fs => fs.foldlM CreateTaskRequest.setField { Payload := "" }

/-- The `CreateTaskResponse` struct. -/
structure CreateTaskResponse where
  TaskID : String
  Status : String
  deriving DecidableEq, Repr

/-- The `TaskStatusResponse` struct. -/
structure TaskStatusResponse where
  Task : Task
  deriving DecidableEq, Repr

/-- The body of an HTTP response: the plain text of `http.Error`, or one of the
two JSON-encoded structs. -/
inductive Body where
  | text (msg : String)
  | created (r : CreateTaskResponse)
  | status (r : TaskStatusResponse)
  deriving DecidableEq, Repr

/-- An HTTP response: status code and body. -/
structure Response where
  code : Nat
  body : Body
  deriving DecidableEq, Repr

/-- The JSON object a `TaskStatusResponse` carries under its key `task`. -/
def TaskStatusResponse.taskDoc (tc : TimeCodec) (r : TaskStatusResponse) : Doc :=
  r.Task.marshal tc

/-- The process state of the API: the Redis client and the creation counter. -/
structure State where
  conn : Conn
  tasksCreated : Nat

/-- The `createTaskHandler` function; `uuid` is the value of
`uuid.New().String()` and `now` that of `time.Now()`. -/
def createTaskHandler (tc : TimeCodec) (uuid : String) (now : Nat) (s : State) (body : Doc) :
    Response × State :=
  match CreateTaskRequest.decode body with
  | none => ({ code := 400, body := .text "Invalid request body" }, s)
  | some req =>
    if req.Payload = "" then
      ({ code := 400, body := .text "Payload is required" }, s)
    else
      let task : Task := { ID := uuid, Payload := req.Payload, Status := "pending", CreatedAt := now }
      match s.conn.Set ("task:" ++ task.ID) (task.marshal tc) with
      | (.error _, c1) =>
        ({ code := 500, body := .text "Failed to store task" }, { s with conn := c1 })
      | (.ok _, c1) =>
        match c1.LPush "task:queue" task.ID with
        | (.error _, c2) =>
          ({ code := 500, body := .text "Failed to enqueue task" }, { s with conn := c2 })
        | (.ok _, c2) =>
          ({ code := 201, body := .created { TaskID := task.ID, Status := "pending" } },
           { s with conn := c2, tasksCreated := s.tasksCreated + 1 })

/-- The `getTaskHandler` function; `taskID` is the path variable `id`. -/
def getTaskHandler (tc : TimeCodec) (s : State) (taskID : String) : Response × State :=
  match s.conn.Get ("task:" ++ taskID) with
  | (.error .nil, c) => ({ code := 404, body := .text "Task not found" }, { s with conn := c })
  | (.error .other, c) =>
    ({ code := 500, body := .text "Failed to retrieve task" }, { s with conn := c })
  | (.ok taskJSON, c) =>
    match Task.unmarshal tc taskJSON with
    | none => ({ code := 500, body := .text "Failed to parse task" }, { s with conn := c })
    | some task => ({ code := 200, body := .status { Task := task } }, { s with conn := c })

end Api

/-! ## Closed forms of a tick -/

namespace Worker

/-- The key space once the last element of `task:queue` has been popped,
`q` being what is left. -/
def popped (db : String → Option RVal) (q : List String) : String → Option RVal :=
  setKey db "task:queue" (if q = [] then none else some (.list q))

/-- The terminal status `processNextTask` assigns to a task. -/
def terminalStatus (task : Task) : String :=
  if task.Payload.utf8ByteSize % 10 = 0 then "failed" else "completed"

/-- The state a tick ends in when it pops `i` from `q ++ [i]` and loads and
runs `task`. -/
def processedState (tc : TimeCodec) (w : State) (q : List String) (i : String) (task : Task) :
    State :=
  let task1 : Task := { task with Status := "processing", UpdatedAt := w.clock }
  let task3 : Task :=
    { task with Status := terminalStatus task, UpdatedAt := w.clock + processingTime task }
  let key := "task:" ++ task.ID
  let failed : Bool := task.Payload.utf8ByteSize % 10 = 0
  { conn :=
      { db := setKey (setKey (popped w.conn.db q) key (some (.string (task1.marshal tc))))
          key (some (.string (task3.marshal tc)))
        outages := []
        sent := w.conn.sent ++ [Cmd.llen "task:queue", Cmd.rpop "task:queue",
          Cmd.get ("task:" ++ i), Cmd.set key (task1.marshal tc), Cmd.set key (task3.marshal tc)] }
    clock := w.clock + processingTime task
    tasksProcessed := if failed then w.tasksProcessed else w.tasksProcessed + 1
    tasksFailed := if failed then w.tasksFailed + 1 else w.tasksFailed
    queueLength := (q ++ [i]).length
    taskProcessingDuration :=
      w.taskProcessingDuration ++ [w.clock + processingTime task - w.clock]
    logs := w.logs ++ [LogEvent.processing i, LogEvent.working task.ID (processingTime task),
      if failed then LogEvent.taskFailed i else LogEvent.taskCompleted i] }

/-- The state a tick ends in when it pops `i` from `q ++ [i]` and drops it,
`ev` being the failure it logs. -/
def droppedState (w : State) (q : List String) (i : String) (ev : LogEvent) : State :=
  { conn :=
      { db := popped w.conn.db q
        outages := []
        sent := w.conn.sent ++ [Cmd.llen "task:queue", Cmd.rpop "task:queue",
          Cmd.get ("task:" ++ i)] }
    clock := w.clock
    tasksProcessed := w.tasksProcessed
    tasksFailed := w.tasksFailed + 1
    queueLength := (q ++ [i]).length
    taskProcessingDuration := w.taskProcessingDuration
    logs := w.logs ++ [LogEvent.processing i, ev] }

end Worker

/-! ## Observations used by the claims -/

/-- The IDs popped according to a log: one per `Processing task` line. -/
def Worker.poppedIDs (logs : List Worker.LogEvent) : List String :=
  logs.filterMap (fun e => match e with
    | Worker.LogEvent.processing i => some i
    | _ => none)

/-- Run `n` ticks of the worker one after the other. -/
def Worker.ticks (tc : TimeCodec) : Nat → Worker.State → Worker.State
  | 0, w => w
  | n + 1, w => Worker.ticks tc n (Worker.processNextTask tc w)

/-- The place of a status in the order pending, processing, then completed
and failed together; `none` for any other string. -/
def statusRank (s : String) : Option Nat :=
  if s = "pending" then some 0
  else if s = "processing" then some 1
  else if s = "completed" then some 2
  else if s = "failed" then some 2
  else none

/-- Whether replacing status `old` by status `new` goes backward in the order
of `statusRank`. -/
def movesBackward (old new : String) : Bool :=
  match statusRank old, statusRank new with
  | some a, some b => decide (b < a)
  | _, _ => false

/-- The status a document carries: the string of its last member whose key
selects the `status` field. -/
def Doc.status? (d : Doc) : Option String :=
  match d with
  | .object fs =>
    fs.foldl (fun acc kv =>
      if keyMatches "status" kv.1 then
        (match kv.2 with
         | .str s => some s
         | _ => acc)
      else acc) none
  | _ => none

/-- The status of the record stored under `key`, if there is one. -/
def storedStatus (db : String → Option RVal) (key : String) : Option String :=
  match db key with
  | some (.string d) => d.status?
  | _ => none

/-- Issue `cmd` on the client, dropping the reply. -/
def Conn.run (c : Conn) (cmd : Cmd) : Conn :=
  match cmd with
  | .set key d => (c.Set key d).2
  | .get key => (c.Get key).2
  | .lpush key v => (c.LPush key v).2
  | .rpop key => (c.RPop key).2
  | .llen key => (c.LLen key).2

/-- The key space after `cmd` has been served from `db`. -/
def effect (db : String → Option RVal) (cmd : Cmd) : String → Option RVal :=
  (Conn.run { db := db, outages := [], sent := [] } cmd).db

/-- Whether serving `cmd` from `db` overwrites a record by one whose status is
further back. -/
def writesBackward (db : String → Option RVal) (cmd : Cmd) : Bool :=
  match cmd with
  | .set key d =>
    (match storedStatus db key, d.status? with
     | some old, some new => movesBackward old new
     | _, _ => false)
  | _ => false

/-- The commands of `cmds`, served in order starting from `db`, that move a
stored status backward. -/
def backwardWrites (db : String → Option RVal) : List Cmd → List Cmd
  | [] => []
  | cmd :: cmds =>
    (if writesBackward db cmd then [cmd] else []) ++ backwardWrites (effect db cmd) cmds

/-- The commands a tick issues from state `w`. -/
def Worker.issuedBy (tc : TimeCodec) (w : Worker.State) : List Cmd :=
  (Worker.processNextTask tc w).conn.sent.drop w.conn.sent.length

/-- The tick from `w` would load a task whose record, under the key the tick
writes to, is already completed or failed. -/
def Worker.ReloadsTerminal (tc : TimeCodec) (w : Worker.State) : Prop :=
  ∃ q i d task s, w.conn.db "task:queue" = some (.list (q ++ [i])) ∧
    w.conn.db ("task:" ++ i) = some (.string d) ∧ Worker.Task.unmarshal tc d = some task ∧
    storedStatus w.conn.db ("task:" ++ task.ID) = some s ∧ (s = "completed" ∨ s = "failed")

/-- Serve creation requests one after the other; each request comes with the
UUID and the clock reading its handler draws. -/
def Api.createAll (tc : TimeCodec) (s : Api.State) :
    List (String × Nat × Doc) → List Api.Response × Api.State
  | [] => ([], s)
  | (uuid, now, body) :: rest =>
    let r := Api.createTaskHandler tc uuid now s body
    let rs := Api.createAll tc r.2 rest
    (r.1 :: rs.1, rs.2)

/-- The queue holds exactly `ql`, and every ID in it names a task key (not the
queue key) whose record, if it decodes, carries that ID. -/
def Worker.QueueInv (tc : TimeCodec) (db : String → Option RVal) (ql : List String) : Prop :=
  db "task:queue" = (if ql = [] then none else some (.list ql)) ∧
  ∀ x ∈ ql, "task:" ++ x ≠ "task:queue" ∧
    ∀ d task, db ("task:" ++ x) = some (.string d) →
      Worker.Task.unmarshal tc d = some task → task.ID = x

/-- The IDs of the tasks run to an outcome according to a log: one per
`completed` or `failed` line. -/
def Worker.finishedIDs (logs : List Worker.LogEvent) : List String :=
  logs.filterMap (fun e => match e with
    | Worker.LogEvent.taskCompleted i => some i
    | Worker.LogEvent.taskFailed i => some i
    | _ => none)

/-- The record of task `x` as the producer writes it: payload `p`, status
`pending`, created at `c`, no `updated_at`. -/
def pendingRecord (tc : TimeCodec) (x p : String) (c : Nat) : Doc :=
  .object [("id", .str x), ("payload", .str p), ("status", .str "pending"),
    ("created_at", .str (tc.format c))]

/-- The record of task `x` once the worker has run it: payload `p`, status
`failed` when the byte length of `p` is a multiple of ten and `completed`
otherwise, created at `c`, updated at `u`. -/
def settledRecord (tc : TimeCodec) (x p : String) (c u : Nat) : Doc :=
  .object [("id", .str x), ("payload", .str p),
    ("status", .str (if p.utf8ByteSize % 10 = 0 then "failed" else "completed")),
    ("created_at", .str (tc.format c)), ("updated_at", .str (tc.format u))]

/-- The store holds the settled record of task `x`. -/
def Worker.Settled (tc : TimeCodec) (db : String → Option RVal) (x p : String) (c : Nat) :
    Prop :=
  ∃ u, db ("task:" ++ x) = some (.string (settledRecord tc x p c u))

/-- The store holds the pending or the settled record of task `x`. -/
def Worker.Known (tc : TimeCodec) (db : String → Option RVal) (x p : String) (c : Nat) :
    Prop :=
  db ("task:" ++ x) = some (.string (pendingRecord tc x p c)) ∨ Worker.Settled tc db x p c

/-! ## Example states -/

/-- The key space holding exactly the given bindings (the first binding of a
key wins). -/
def dbOf (kvs : List (String × RVal)) : String → Option RVal :=
  fun k => (kvs.find? (fun kv => kv.1 == k)).map (fun kv => kv.2)

/-- A reachable store with the given key space and nothing sent yet. -/
def connOf (kvs : List (String × RVal)) : Conn :=
  { db := dbOf kvs, outages := [], sent := [] }

/-- A worker at clock `7` with fresh collectors, talking to `c`. -/
def Worker.stateOf (c : Conn) : Worker.State :=
  { conn := c, clock := 7, tasksProcessed := 0, tasksFailed := 0, queueLength := 0,
    taskProcessingDuration := [], logs := [] }

/-- A record as the producer writes it: id `i`, payload `p`, pending, created
at instant `3`. -/
def pendingDoc (i p : String) : Doc :=
  .object [("id", .str i), ("payload", .str p), ("status", .str "pending"),
    ("created_at", .str "3")]

/-- An API process with an empty, reachable store. -/
def Api.fresh : Api.State :=
  { conn := connOf [], tasksCreated := 0 }

/-- An API process with an empty store whose next command fails. -/
def Api.storeDown : Api.State :=
  { conn := { db := dbOf [], outages := [true], sent := [] }, tasksCreated := 0 }

/-- An API process with an empty store whose second command fails. -/
def Api.pushDown : Api.State :=
  { conn := { db := dbOf [], outages := [false, true], sent := [] }, tasksCreated := 0 }

/-- The request body with the single member `payload`. -/
def Api.bodyOf (p : String) : Doc :=
  .object [("payload", .str p)]

/-- The store after the API created task `a` with payload `hello` at instant
`3` and the worker, at clock `7`, ran one tick. -/
def Api.afterTick : Conn :=
  (Worker.processNextTask digitCodec
    (Worker.stateOf (Api.createTaskHandler digitCodec "a" 3 Api.fresh (Api.bodyOf "hello")).2.conn)).conn

/-- Two creation requests: task `a` with payload `hello`, then task `b` with
payload `0123456789`. -/
def Api.twoRequests : List (String × Nat × Doc) :=
  [("a", 3, Api.bodyOf "hello"), ("b", 4, Api.bodyOf "0123456789")]

/-- A worker about to pop `a`, whose record carries payload `p`. -/
def Worker.oneTask (p : String) : Worker.State :=
  Worker.stateOf (connOf [("task:queue", .list ["a"]), ("task:a", .string (pendingDoc "a" p))])

/-- A worker about to pop `a`, whose record carries payload `hello`, talking to
a store that serves four commands and fails the fifth. -/
def Worker.writeDown : Worker.State :=
  Worker.stateOf { db := dbOf [("task:queue", .list ["a"]),
                     ("task:a", .string (pendingDoc "a" "hello"))],
                   outages := [false, false, false, false, true], sent := [] }

/-- A worker about to pop `a`, whose record names itself `b`. -/
def Worker.misnamed : Worker.State :=
  Worker.stateOf (connOf [("task:queue", .list ["a"]), ("task:a", .string (pendingDoc "b" "hello"))])

/-- A worker about to pop `a` again, whose record is already completed. -/
def Worker.finished : Worker.State :=
  Worker.stateOf (connOf [("task:queue", .list ["a"]),
    ("task:a", .string (.object [("id", .str "a"), ("payload", .str "hello"),
      ("status", .str "completed"), ("created_at", .str "3"), ("updated_at", .str "5")]))])

/-- A worker whose queue holds `b` then `a` (popped first), `a` having no
record. -/
def Worker.dangling : Worker.State :=
  Worker.stateOf (connOf [("task:queue", .list ["b", "a"]),
    ("task:b", .string (pendingDoc "b" "hello"))])

/-! ## Lemmas -/

theorem digit_char (d : Nat) (h : d < 10) :
    (Char.ofNat (48 + d)).isDigit = true ∧ (Char.ofNat (48 + d)).toNat - 48 = d := by
  interval_cases d <;> decide

theorem valueOf_digitsOf (fuel n : Nat) (h : n < fuel) : valueOf (digitsOf fuel n) = some n := by
  induction fuel generalizing n with
  | zero => omega
  | succ f ih =>
    have hd := digit_char (n % 10) (Nat.mod_lt _ (by decide))
    simp only [digitsOf, valueOf, hd.1, hd.2, if_true]
    by_cases h0 : n / 10 = 0
    · simp only [h0, if_true, valueOf, Option.map_some']
      congr 1; omega
    · simp only [h0, if_false]
      rw [ih (n / 10) (by omega)]
      simp only [Option.map_some']
      congr 1; omega

theorem digitCodec_lawful : digitCodec.Lawful := by
  intro t
  exact valueOf_digitsOf (t + 1) t (Nat.lt_succ_self t)

theorem task_key_inj (a b : String) (h : "task:" ++ a = "task:" ++ b) : a = b := by
  have h1 := congrArg String.data h
  simp only [String.data_append, List.append_cancel_left_eq] at h1
  exact String.ext h1

theorem task_key_ne_queue (i : String) (d : Doc) (xs : List String) (db : String → Option RVal)
    (hq : db "task:queue" = some (.list xs)) (hd : db ("task:" ++ i) = some (.string d)) :
    "task:" ++ i ≠ "task:queue" := by
  intro h
  rw [h, hq] at hd
  cases hd

theorem setKey_same (db : String → Option RVal) (key : String) (v : Option RVal) :
    setKey db key v key = v := by
  simp [setKey]

theorem setKey_other (db : String → Option RVal) (key k : String) (v : Option RVal)
    (h : k ≠ key) : setKey db key v k = db k := by
  simp [setKey, h]

theorem issue_served (c : Conn) (cmd : Cmd) :
    c.issue cmd = (served c.outages 0,
      { db := c.db, outages := c.outages.tail, sent := c.sent ++ [cmd] }) := by
  obtain ⟨db, outs, sent⟩ := c
  cases outs <;> simp [Conn.issue, served]

theorem served_tail (outs : List Bool) (k : Nat) :
    served outs.tail k = served outs (k + 1) := by
  cases outs <;> simp [served]

/-- The two outcomes of `Set`. -/
theorem Conn.Set_spec (c : Conn) (key : String) (d : Doc) :
    ∃ c1 : Conn, c1.sent = c.sent ++ [Cmd.set key d] ∧ c1.outages = c.outages.tail ∧
      ((c.Set key d = (.ok (), c1) ∧ c1.db = setKey c.db key (some (.string d))) ∨
       (c.Set key d = (.error .other, c1) ∧ c1.db = c.db ∧ c.outages ≠ [])) := by
  obtain ⟨db, outs, sent⟩ := c
  rcases outs with _ | ⟨_ | _, rest⟩
  · exact ⟨_, rfl, rfl, Or.inl ⟨rfl, rfl⟩⟩
  · exact ⟨_, rfl, rfl, Or.inl ⟨rfl, rfl⟩⟩
  · exact ⟨_, rfl, rfl, Or.inr ⟨rfl, rfl, by simp⟩⟩

/-- The two outcomes of `LPush` on the queue. -/
theorem Conn.LPush_spec (c : Conn) (v : String) :
    ∃ c1 : Conn, c1.sent = c.sent ++ [Cmd.lpush "task:queue" v] ∧
      c1.outages = c.outages.tail ∧
      ((c.LPush "task:queue" v = (.ok (), c1) ∧
          c1.db = setKey c.db "task:queue" (some (.list (v :: queueOf c.db))) ∧
          ∀ d, c.db "task:queue" ≠ some (.string d)) ∨
       (c.LPush "task:queue" v = (.error .other, c1) ∧ c1.db = c.db)) := by
  obtain ⟨db, outs, sent⟩ := c
  refine ⟨(Conn.LPush ⟨db, outs, sent⟩ "task:queue" v).2, ?_, ?_, ?_⟩
  · cases hv : db "task:queue" with
    | none => rcases outs with _ | ⟨_ | _, rest⟩ <;> simp [Conn.LPush, Conn.issue, hv]
    | some x =>
      cases x <;> rcases outs with _ | ⟨_ | _, rest⟩ <;> simp [Conn.LPush, Conn.issue, hv]
  · cases hv : db "task:queue" with
    | none => rcases outs with _ | ⟨_ | _, rest⟩ <;> simp [Conn.LPush, Conn.issue, hv]
    | some x =>
      cases x <;> rcases outs with _ | ⟨_ | _, rest⟩ <;> simp [Conn.LPush, Conn.issue, hv]
  · cases hv : db "task:queue" with
    | none =>
      rcases outs with _ | ⟨_ | _, rest⟩ <;> simp [Conn.LPush, Conn.issue, hv, queueOf]
    | some x =>
      cases x <;> rcases outs with _ | ⟨_ | _, rest⟩ <;>
        simp [Conn.LPush, Conn.issue, hv, queueOf]

theorem effect_llen (db : String → Option RVal) (key : String) :
    effect db (.llen key) = db := by
  simp only [effect, Conn.run, Conn.LLen, Conn.issue]
  cases h : db key with
  | none => simp
  | some v => cases v <;> simp

theorem effect_get (db : String → Option RVal) (key : String) :
    effect db (.get key) = db := by
  simp only [effect, Conn.run, Conn.Get, Conn.issue]
  cases h : db key with
  | none => simp
  | some v => cases v <;> simp

theorem effect_set (db : String → Option RVal) (key : String) (d : Doc) :
    effect db (.set key d) = setKey db key (some (.string d)) := by
  simp [effect, Conn.run, Conn.Set, Conn.issue]

theorem movesBackward_processing (s : String) (h1 : s ≠ "completed") (h2 : s ≠ "failed") :
    movesBackward s "processing" = false := by
  have hp : statusRank "processing" = some 1 := by decide
  unfold movesBackward
  rw [hp]
  unfold statusRank
  split_ifs <;> simp_all

theorem storedStatus_setKey (db : String → Option RVal) (key : String) (d : Doc) :
    storedStatus (setKey db key (some (.string d))) key = d.status? := by
  simp [storedStatus, setKey_same]

namespace Worker

theorem tick_processed (tc : TimeCodec) (w : State) (q : List String) (i : String) (d : Doc)
    (task : Task) (hout : w.conn.outages = [])
    (hq : w.conn.db "task:queue" = some (.list (q ++ [i])))
    (hd : w.conn.db ("task:" ++ i) = some (.string d))
    (hu : Task.unmarshal tc d = some task) :
    processNextTask tc w = processedState tc w q i task := by
  have hne := task_key_ne_queue i d _ _ hq hd
  obtain ⟨⟨db, outs, sent⟩, clock, tp, tf, ql, dur, logs⟩ := w
  simp only at hout hq hd
  subst hout
  by_cases hf : task.Payload.utf8ByteSize % 10 = 0 <;>
  simp [processNextTask, processedState, Conn.LLen, Conn.RPop, Conn.Get, Conn.Set, Conn.issue,
    updateTask, processTaskPayload, hq, hd, hu, hne, hf, setKey_same, setKey_other, popped,
    terminalStatus, processingTime]

theorem tick_dropped_missing (tc : TimeCodec) (w : State) (q : List String) (i : String)
    (hout : w.conn.outages = [])
    (hq : w.conn.db "task:queue" = some (.list (q ++ [i])))
    (hd : ∀ d, w.conn.db ("task:" ++ i) ≠ some (.string d)) :
    processNextTask tc w = droppedState w q i (LogEvent.getFailed i) := by
  obtain ⟨⟨db, outs, sent⟩, clock, tp, tf, ql, dur, logs⟩ := w
  simp only at hout hq hd
  subst hout
  by_cases hk : "task:" ++ i = "task:queue"
  · by_cases hq0 : q = [] <;>
    simp [processNextTask, droppedState, Conn.LLen, Conn.RPop, Conn.Get, Conn.issue, hq, hk,
      setKey_same, popped, hq0]
  · cases hv : db ("task:" ++ i) with
    | none =>
      simp [processNextTask, droppedState, Conn.LLen, Conn.RPop, Conn.Get, Conn.issue, hq, hk,
        setKey_other, popped, hv]
    | some v =>
      cases v with
      | string d => exact absurd hv (hd d)
      | list xs =>
        simp [processNextTask, droppedState, Conn.LLen, Conn.RPop, Conn.Get, Conn.issue, hq, hk,
          setKey_other, popped, hv]

theorem tick_dropped_unparsed (tc : TimeCodec) (w : State) (q : List String) (i : String)
    (d : Doc) (hout : w.conn.outages = [])
    (hq : w.conn.db "task:queue" = some (.list (q ++ [i])))
    (hd : w.conn.db ("task:" ++ i) = some (.string d))
    (hu : Task.unmarshal tc d = none) :
    processNextTask tc w = droppedState w q i (LogEvent.unmarshalFailed i) := by
  have hne := task_key_ne_queue i d _ _ hq hd
  obtain ⟨⟨db, outs, sent⟩, clock, tp, tf, ql, dur, logs⟩ := w
  simp only at hout hq hd
  subst hout
  simp [processNextTask, droppedState, Conn.LLen, Conn.RPop, Conn.Get, Conn.issue, hq, hd, hu,
    hne, setKey_other, popped]

theorem queueOf_popped (db : String → Option RVal) (q : List String) :
    queueOf (popped db q) = q := by
  unfold queueOf popped
  rw [setKey_same]
  by_cases h : q = []
  · simp [h]
  · simp [h]

/-- What every tick that pops `i` does, whatever the record of `i`. -/
theorem tick_pops (tc : TimeCodec) (w : State) (q : List String) (i : String)
    (hout : w.conn.outages = [])
    (hq : w.conn.db "task:queue" = some (.list (q ++ [i]))) :
    ∃ rest cmds, (processNextTask tc w).logs = w.logs ++ LogEvent.processing i :: rest ∧
      poppedIDs rest = [] ∧ (processNextTask tc w).conn.outages = [] ∧
      (processNextTask tc w).conn.sent = w.conn.sent ++
        [Cmd.llen "task:queue", Cmd.rpop "task:queue", Cmd.get ("task:" ++ i)] ++ cmds := by
  by_cases h : ∃ d, w.conn.db ("task:" ++ i) = some (.string d)
  · obtain ⟨d, hd⟩ := h
    cases hu : Task.unmarshal tc d with
    | none =>
      rw [tick_dropped_unparsed tc w q i d hout hq hd hu]
      exact ⟨[LogEvent.unmarshalFailed i], [], by simp [droppedState], rfl, rfl,
        by simp [droppedState]⟩
    | some task =>
      rw [tick_processed tc w q i d task hout hq hd hu]
      refine ⟨[LogEvent.working task.ID (processingTime task),
          if (decide (task.Payload.utf8ByteSize % 10 = 0)) = true then LogEvent.taskFailed i
          else LogEvent.taskCompleted i],
        [Cmd.set ("task:" ++ task.ID)
            (Task.marshal tc { task with Status := "processing", UpdatedAt := w.clock }),
          Cmd.set ("task:" ++ task.ID)
            (Task.marshal tc { task with Status := terminalStatus task,
                                         UpdatedAt := w.clock + processingTime task })],
        ?_, ?_, rfl, ?_⟩
      · simp [processedState]
      · by_cases hf : task.Payload.utf8ByteSize % 10 = 0 <;> simp [poppedIDs, hf]
      · simp [processedState]
  · have hd : ∀ d, w.conn.db ("task:" ++ i) ≠ some (.string d) := fun d hd => h ⟨d, hd⟩
    rw [tick_dropped_missing tc w q i hout hq hd]
    exact ⟨[LogEvent.getFailed i], [], by simp [droppedState], rfl, rfl, by simp [droppedState]⟩

/-- A tick that pops an ID without a decodable record drops it. -/
theorem tick_dropped (tc : TimeCodec) (w : State) (q : List String) (i : String)
    (hout : w.conn.outages = [])
    (hq : w.conn.db "task:queue" = some (.list (q ++ [i])))
    (hd : ∀ d, w.conn.db ("task:" ++ i) = some (.string d) → Task.unmarshal tc d = none) :
    ∃ ev, processNextTask tc w = droppedState w q i ev := by
  by_cases h : ∃ d, w.conn.db ("task:" ++ i) = some (.string d)
  · obtain ⟨d, hd1⟩ := h
    exact ⟨_, tick_dropped_unparsed tc w q i d hout hq hd1 (hd d hd1)⟩
  · exact ⟨_, tick_dropped_missing tc w q i hout hq (fun d hd1 => h ⟨d, hd1⟩)⟩

/-- The record a tick leaves when its pop, its load and its last write are
served, whatever happens to the other commands. -/
theorem tick_stored (tc : TimeCodec) (w : State) (q : List String) (i : String) (d : Doc)
    (task : Task)
    (hpop : served w.conn.outages 1 = true) (hget : served w.conn.outages 2 = true)
    (hset : served w.conn.outages 4 = true)
    (hq : w.conn.db "task:queue" = some (.list (q ++ [i])))
    (hd : w.conn.db ("task:" ++ i) = some (.string d))
    (hu : Task.unmarshal tc d = some task) :
    (processNextTask tc w).conn.db ("task:" ++ task.ID) = some (.string (Task.marshal tc
      { task with Status := terminalStatus task,
                  UpdatedAt := w.clock + processingTime task })) := by
  have hne := task_key_ne_queue i d _ _ hq hd
  obtain ⟨⟨db, outs, sent⟩, clock, tp, tf, ql, dur, logs⟩ := w
  simp only at hpop hget hset hq hd
  by_cases hf : task.Payload.utf8ByteSize % 10 = 0 <;>
  cases h0 : served outs 0 <;> cases h3 : served outs 3 <;>
  simp [processNextTask, Conn.LLen, Conn.RPop, Conn.Get, Conn.Set, issue_served, served_tail,
    updateTask, processTaskPayload, hq, hd, hu, hne, hf, setKey_same, setKey_other,
    terminalStatus, processingTime, hpop, hget, hset, h0, h3]

theorem status_marshal (tc : TimeCodec) (t : Task) :
    (Task.marshal tc t).status? = some t.Status := by
  have h1 : keyMatches "status" "id" = false := by decide
  have h2 : keyMatches "status" "payload" = false := by decide
  have h3 : keyMatches "status" "status" = true := by decide
  have h4 : keyMatches "status" "created_at" = false := by decide
  have h5 : keyMatches "status" "updated_at" = false := by decide
  simp [Task.marshal, Doc.status?, h1, h2, h3, h4, h5]

theorem movesBackward_terminal (task : Task) :
    movesBackward "processing" (terminalStatus task) = false := by
  unfold terminalStatus
  split <;> decide

theorem effect_rpop (db : String → Option RVal) (q : List String) (i : String)
    (hq : db "task:queue" = some (.list (q ++ [i]))) :
    effect db (.rpop "task:queue") = popped db q := by
  simp [effect, Conn.run, Conn.RPop, Conn.issue, hq, popped]

/-- A tick that finds nothing to pop issues `LLen` and `RPop` only. -/
theorem tick_no_pop (tc : TimeCodec) (w : State) (hout : w.conn.outages = [])
    (hq : ∀ q i, w.conn.db "task:queue" ≠ some (.list (q ++ [i]))) :
    (processNextTask tc w).conn.sent
      = w.conn.sent ++ [Cmd.llen "task:queue", Cmd.rpop "task:queue"] := by
  obtain ⟨⟨db, outs, sent⟩, clock, tp, tf, ql, dur, logs⟩ := w
  simp only at hout hq
  subst hout
  cases hv : db "task:queue" with
  | none => simp [processNextTask, Conn.LLen, Conn.RPop, Conn.issue, hv]
  | some v =>
    cases v with
    | string d => simp [processNextTask, Conn.LLen, Conn.RPop, Conn.issue, hv]
    | list xs =>
      rcases List.eq_nil_or_concat xs with h | ⟨q, i, h⟩
      · subst h
        simp [processNextTask, Conn.LLen, Conn.RPop, Conn.issue, hv]
      · rw [h, List.concat_eq_append] at hv
        exact (hq q i hv).elim

end Worker

namespace Api

theorem unmarshal_marshal (tc : TimeCodec) (t : Task)
    (h : tc.parse (tc.format t.CreatedAt) = some t.CreatedAt) :
    Task.unmarshal tc (Task.marshal tc t) = some t := by
  have h1 : keyMatches "id" "id" = true := by decide
  have h2 : keyMatches "id" "payload" = false := by decide
  have h3 : keyMatches "payload" "payload" = true := by decide
  have h4 : keyMatches "id" "status" = false := by decide
  have h5 : keyMatches "payload" "status" = false := by decide
  have h6 : keyMatches "status" "status" = true := by decide
  have h7 : keyMatches "id" "created_at" = false := by decide
  have h8 : keyMatches "payload" "created_at" = false := by decide
  have h9 : keyMatches "status" "created_at" = false := by decide
  have h10 : keyMatches "created_at" "created_at" = true := by decide
  simp [Task.unmarshal, Task.marshal, List.foldlM, Task.setField, assignString, assignTime,
    Task.zero, h1, h2, h3, h4, h5, h6, h7, h8, h9, h10, h]

/-- What a creation answered with 201 has done. -/
theorem create_created (tc : TimeCodec) (uuid : String) (now : Nat) (s : State) (body : Doc)
    (h : (createTaskHandler tc uuid now s body).1.code = 201) :
    ∃ req, CreateTaskRequest.decode body = some req ∧ req.Payload ≠ "" ∧
      "task:" ++ uuid ≠ "task:queue" ∧
      (createTaskHandler tc uuid now s body).1
        = { code := 201, body := .created { TaskID := uuid, Status := "pending" } } ∧
      (createTaskHandler tc uuid now s body).2.conn.db
        = setKey (setKey s.conn.db ("task:" ++ uuid)
            (some (.string (Task.marshal tc
              { ID := uuid, Payload := req.Payload, Status := "pending", CreatedAt := now }))))
            "task:queue" (some (.list (uuid :: queueOf s.conn.db))) ∧
      (createTaskHandler tc uuid now s body).2.conn.outages = s.conn.outages.drop 2 ∧
      (createTaskHandler tc uuid now s body).2.conn.sent = s.conn.sent ++
        [Cmd.set ("task:" ++ uuid) (Task.marshal tc
            { ID := uuid, Payload := req.Payload, Status := "pending", CreatedAt := now }),
          Cmd.lpush "task:queue" uuid] := by
  cases hreq : CreateTaskRequest.decode body with
  | none => simp [createTaskHandler, hreq] at h
  | some req =>
    by_cases hp : req.Payload = ""
    · simp [createTaskHandler, hreq, hp] at h
    · refine ⟨req, rfl, hp, ?_⟩
      obtain ⟨c1, hs1, ho1, h1 | h1⟩ := Conn.Set_spec s.conn ("task:" ++ uuid)
        (Task.marshal tc { ID := uuid, Payload := req.Payload, Status := "pending",
                           CreatedAt := now })
      · obtain ⟨c2, hs2, ho2, h2 | h2⟩ := Conn.LPush_spec c1 uuid
        · have hk : "task:" ++ uuid ≠ "task:queue" := by
            intro hk
            apply h2.2.2
            rw [h1.2, ← hk, setKey_same]
          have hk1 : ("task:queue" : String) ≠ "task:" ++ uuid := fun e => hk e.symm
          have hqo : queueOf c1.db = queueOf s.conn.db := by
            unfold queueOf
            rw [h1.2, setKey_other _ _ _ _ hk1]
          simp only [createTaskHandler, hreq, hp, if_false, h1.1, h2.1]
          refine ⟨hk, trivial, ?_, ?_, ?_⟩
          · rw [h2.2.1, hqo, h1.2]
          · rw [ho2, ho1]; cases s.conn.outages with
            | nil => rfl
            | cons a t => cases t <;> rfl
          · rw [hs2, hs1]; simp
        · simp [createTaskHandler, hreq, hp, h1.1, h2.1] at h
      · simp [createTaskHandler, hreq, hp, h1.1] at h

theorem Get_found (c : Conn) (key : String) (d : Doc) (hup : c.outages.head? ≠ some true)
    (hd : c.db key = some (.string d)) :
    c.Get key = (.ok d, { c with outages := c.outages.tail, sent := c.sent ++ [Cmd.get key] }) := by
  obtain ⟨db, outs, sent⟩ := c
  rcases outs with _ | ⟨_ | _, rest⟩
  · simp only at hd; simp [Conn.Get, Conn.issue, hd]
  · simp only at hd; simp [Conn.Get, Conn.issue, hd]
  · simp at hup

end Api

namespace Worker

theorem unmarshal_api_marshal_id (tc : TimeCodec) (t : Api.Task) (t1 : Task)
    (h : Task.unmarshal tc (Api.Task.marshal tc t) = some t1) : t1.ID = t.ID := by
  have h1 : keyMatches "id" "id" = true := by decide
  have h2 : keyMatches "id" "payload" = false := by decide
  have h3 : keyMatches "payload" "payload" = true := by decide
  have h4 : keyMatches "id" "status" = false := by decide
  have h5 : keyMatches "payload" "status" = false := by decide
  have h6 : keyMatches "status" "status" = true := by decide
  have h7 : keyMatches "id" "created_at" = false := by decide
  have h8 : keyMatches "payload" "created_at" = false := by decide
  have h9 : keyMatches "status" "created_at" = false := by decide
  have h10 : keyMatches "created_at" "created_at" = true := by decide
  cases hc : tc.parse (tc.format t.CreatedAt) with
  | none =>
    simp [Task.unmarshal, Api.Task.marshal, List.foldlM, Task.setField, assignString,
      assignTime, Task.zero, h1, h2, h3, h4, h5, h6, h7, h8, h9, h10, hc] at h
  | some c =>
    simp [Task.unmarshal, Api.Task.marshal, List.foldlM, Task.setField, assignString,
      assignTime, Task.zero, h1, h2, h3, h4, h5, h6, h7, h8, h9, h10, hc] at h
    rw [← h]

end Worker

theorem queueOf_of_inv (tc : TimeCodec) (db : String → Option RVal) (ql : List String)
    (h : Worker.QueueInv tc db ql) : queueOf db = ql := by
  unfold queueOf
  rw [h.1]
  by_cases hq : ql = []
  · simp [hq]
  · simp [hq]

namespace Api

theorem inv_create (tc : TimeCodec) (uuid : String) (now : Nat) (s : State) (body : Doc)
    (ql : List String) (hinv : Worker.QueueInv tc s.conn.db ql)
    (hok : (createTaskHandler tc uuid now s body).1.code = 201) :
    Worker.QueueInv tc (createTaskHandler tc uuid now s body).2.conn.db (uuid :: ql) := by
  obtain ⟨req, _, _, hk, _, hdb, _, _⟩ := create_created tc uuid now s body hok
  rw [hdb, queueOf_of_inv tc _ _ hinv]
  constructor
  · rw [setKey_same]; simp
  · intro x hx
    by_cases hxu : x = uuid
    · subst hxu
      refine ⟨hk, ?_⟩
      intro d task hd hu
      rw [setKey_other _ _ _ _ hk, setKey_same] at hd
      injection hd with hd
      injection hd with hd
      subst hd
      exact Worker.unmarshal_api_marshal_id tc _ task hu
    · have hmem : x ∈ ql := by
        rcases List.mem_cons.mp hx with h | h
        · exact absurd h hxu
        · exact h
      obtain ⟨hxq, hrec⟩ := hinv.2 x hmem
      refine ⟨hxq, ?_⟩
      intro d task hd hu
      have hne : "task:" ++ x ≠ "task:" ++ uuid := fun e => hxu (task_key_inj _ _ e)
      rw [setKey_other _ _ _ _ hxq, setKey_other _ _ _ _ hne] at hd
      exact hrec d task hd hu

theorem inv_createAll (tc : TimeCodec) (reqs : List (String × Nat × Doc)) :
    ∀ (s : State) (ql : List String), Worker.QueueInv tc s.conn.db ql →
      s.conn.outages = [] →
      (∀ r ∈ (createAll tc s reqs).1, r.code = 201) →
      Worker.QueueInv tc (createAll tc s reqs).2.conn.db
          ((reqs.map (fun r => r.1)).reverse ++ ql) ∧
        (createAll tc s reqs).2.conn.outages = [] := by
  induction reqs with
  | nil =>
    intro s ql hinv hout _
    exact ⟨by simpa [createAll] using hinv, hout⟩
  | cons r rest ih =>
    intro s ql hinv hout hok
    obtain ⟨uuid, now, body⟩ := r
    have hok1 : (createTaskHandler tc uuid now s body).1.code = 201 :=
      hok _ (by simp [createAll])
    have hinv1 := inv_create tc uuid now s body ql hinv hok1
    have hout1 : (createTaskHandler tc uuid now s body).2.conn.outages = [] := by
      obtain ⟨_, _, _, _, _, _, ho, _⟩ := create_created tc uuid now s body hok1
      rw [ho, hout]; rfl
    have hrest : ∀ r ∈ (createAll tc (createTaskHandler tc uuid now s body).2 rest).1,
        r.code = 201 := fun r hr => hok r (by simp [createAll, hr])
    have h := ih _ _ hinv1 hout1 hrest
    simpa [createAll] using h

end Api

namespace Worker

theorem poppedIDs_append (a b : List LogEvent) :
    poppedIDs (a ++ b) = poppedIDs a ++ poppedIDs b := by
  simp [poppedIDs, List.filterMap_append]

/-- Every tick, whatever the state and the outages, logs at most one pop. -/
theorem tick_log (tc : TimeCodec) (w : State) :
    ∃ L, (processNextTask tc w).logs = w.logs ++ L ∧ (poppedIDs L).length ≤ 1 := by
  unfold processNextTask
  rcases w.conn.LLen "task:queue" with ⟨r1, c1⟩
  simp only
  rcases c1.RPop "task:queue" with ⟨r2, c2⟩
  rcases r2 with e | taskID
  · cases e
    · exact ⟨[], by simp, by simp [poppedIDs]⟩
    · exact ⟨[LogEvent.popFailed], by simp, by simp [poppedIDs]⟩
  · simp only
    rcases c2.Get ("task:" ++ taskID) with ⟨r3, c3⟩
    rcases r3 with e | taskJSON
    · exact ⟨[LogEvent.processing taskID, LogEvent.getFailed taskID], by simp,
        by simp [poppedIDs]⟩
    · simp only
      cases Task.unmarshal tc taskJSON with
      | none =>
        exact ⟨[LogEvent.processing taskID, LogEvent.unmarshalFailed taskID], by simp,
          by simp [poppedIDs]⟩
      | some task =>
        simp only [processTaskPayload, updateTask]
        by_cases hf : task.Payload.utf8ByteSize % 10 = 0
        · exact ⟨[LogEvent.processing taskID,
              LogEvent.working task.ID
                (processingTime { task with Status := "processing", UpdatedAt := w.clock }),
              LogEvent.taskFailed taskID], by simp [hf], by simp [poppedIDs]⟩
        · exact ⟨[LogEvent.processing taskID,
              LogEvent.working task.ID
                (processingTime { task with Status := "processing", UpdatedAt := w.clock }),
              LogEvent.taskCompleted taskID], by simp [hf], by simp [poppedIDs]⟩
end Worker

namespace Worker

theorem unmarshal_pendingRecord (tc : TimeCodec) (hlaw : tc.Lawful) (x p : String) (c : Nat) :
    Task.unmarshal tc (pendingRecord tc x p c)
      = some { ID := x, Payload := p, Status := "pending", CreatedAt := c, UpdatedAt := 0 } := by
  have h1 : keyMatches "id" "id" = true := by decide
  have h2 : keyMatches "id" "payload" = false := by decide
  have h3 : keyMatches "payload" "payload" = true := by decide
  have h4 : keyMatches "id" "status" = false := by decide
  have h5 : keyMatches "payload" "status" = false := by decide
  have h6 : keyMatches "status" "status" = true := by decide
  have h7 : keyMatches "id" "created_at" = false := by decide
  have h8 : keyMatches "payload" "created_at" = false := by decide
  have h9 : keyMatches "status" "created_at" = false := by decide
  have h10 : keyMatches "created_at" "created_at" = true := by decide
  simp [Task.unmarshal, pendingRecord, List.foldlM, Task.setField, assignString, assignTime,
    Task.zero, h1, h2, h3, h4, h5, h6, h7, h8, h9, h10, hlaw c]

theorem unmarshal_settledRecord (tc : TimeCodec) (hlaw : tc.Lawful) (x p : String)
    (c u : Nat) :
    Task.unmarshal tc (settledRecord tc x p c u)
      = some { ID := x, Payload := p,
               Status := if p.utf8ByteSize % 10 = 0 then "failed" else "completed",
               CreatedAt := c, UpdatedAt := u } := by
  have h1 : keyMatches "id" "id" = true := by decide
  have h2 : keyMatches "id" "payload" = false := by decide
  have h3 : keyMatches "payload" "payload" = true := by decide
  have h4 : keyMatches "id" "status" = false := by decide
  have h5 : keyMatches "payload" "status" = false := by decide
  have h6 : keyMatches "status" "status" = true := by decide
  have h7 : keyMatches "id" "created_at" = false := by decide
  have h8 : keyMatches "payload" "created_at" = false := by decide
  have h9 : keyMatches "status" "created_at" = false := by decide
  have h10 : keyMatches "created_at" "created_at" = true := by decide
  have h11 : keyMatches "id" "updated_at" = false := by decide
  have h12 : keyMatches "payload" "updated_at" = false := by decide
  have h13 : keyMatches "status" "updated_at" = false := by decide
  have h14 : keyMatches "created_at" "updated_at" = false := by decide
  have h15 : keyMatches "updated_at" "updated_at" = true := by decide
  simp [Task.unmarshal, settledRecord, List.foldlM, Task.setField, assignString, assignTime,
    Task.zero, h1, h2, h3, h4, h5, h6, h7, h8, h9, h10, h11, h12, h13, h14, h15, hlaw c,
    hlaw u]

/-- A known record decodes to a task with the ID, the payload and the creation
time it was written with. -/
theorem known_decodes (tc : TimeCodec) (hlaw : tc.Lawful) (db : String → Option RVal)
    (x p : String) (c : Nat) (h : Known tc db x p c) :
    ∃ d task, db ("task:" ++ x) = some (.string d) ∧ Task.unmarshal tc d = some task ∧
      task.ID = x ∧ task.Payload = p ∧ task.CreatedAt = c := by
  rcases h with h | ⟨u, h⟩
  · exact ⟨_, _, h, unmarshal_pendingRecord tc hlaw x p c, rfl, rfl, rfl⟩
  · exact ⟨_, _, h, unmarshal_settledRecord tc hlaw x p c u, rfl, rfl, rfl⟩

/-- One tick on a queue whose tail names a known record. -/
theorem tick_step (tc : TimeCodec) (hlaw : tc.Lawful) (w : State) (q : List String)
    (i p : String) (c : Nat) (hout : w.conn.outages = [])
    (hq : w.conn.db "task:queue" = some (.list (q ++ [i])))
    (hk : Known tc w.conn.db i p c) :
    (processNextTask tc w).conn.outages = [] ∧
      (processNextTask tc w).conn.db "task:queue"
        = (if q = [] then none else some (.list q)) ∧
      (∃ dur out, (processNextTask tc w).logs
          = w.logs ++ [LogEvent.processing i, LogEvent.working i dur, out] ∧
        (out = LogEvent.taskCompleted i ∨ out = LogEvent.taskFailed i)) ∧
      Settled tc (processNextTask tc w).conn.db i p c ∧
      (∀ k, k ≠ "task:" ++ i → k ≠ "task:queue" →
        (processNextTask tc w).conn.db k = w.conn.db k) := by
  obtain ⟨d, task, hd, hu, hid, hp, hc⟩ := known_decodes tc hlaw _ i p c hk
  have hne := task_key_ne_queue i d _ _ hq hd
  have hqk : ("task:queue" : String) ≠ "task:" ++ i := fun e => hne e.symm
  rw [tick_processed tc w q i d task hout hq hd hu]
  obtain ⟨tid, tp, ts, tcr, tu⟩ := task
  simp only at hid hp hc
  subst hid hp hc
  refine ⟨rfl, ?_, ?_, ?_, ?_⟩
  · simp only [processedState]
    rw [setKey_other _ _ _ _ hqk, setKey_other _ _ _ _ hqk]
    unfold popped
    rw [setKey_same]
  · refine ⟨_, _, rfl, ?_⟩
    by_cases hf : tp.utf8ByteSize % 10 = 0 <;> simp [hf]
  · refine ⟨w.clock + processingTime
      { ID := tid, Payload := tp, Status := ts, CreatedAt := tcr, UpdatedAt := tu }, ?_⟩
    simp only [processedState]
    rw [setKey_same]
    rfl
  · intro k hk1 hk2
    simp only [processedState, popped]
    rw [setKey_other _ _ _ _ hk1, setKey_other _ _ _ _ hk1, setKey_other _ _ _ _ hk2]

theorem finishedIDs_append (a b : List LogEvent) :
    finishedIDs (a ++ b) = finishedIDs a ++ finishedIDs b := by
  simp [finishedIDs, List.filterMap_append]

/-- The key of a known record is not the queue key when the queue is a list. -/
theorem known_key_ne_queue (tc : TimeCodec) (db : String → Option RVal) (x p : String)
    (c : Nat) (xs : List String) (hq : db "task:queue" = some (.list xs))
    (hk : Known tc db x p c) : "task:" ++ x ≠ "task:queue" := by
  rcases hk with h | ⟨u, h⟩
  · exact task_key_ne_queue x _ _ _ hq h
  · exact task_key_ne_queue x _ _ _ hq h

/-- As many ticks as the queue is long, on a queue of known records: the IDs
are popped and run from the tail, and every record ends settled. -/
theorem ticks_run (tc : TimeCodec) (hlaw : tc.Lawful) (ql : List String) :
    ∀ w : State, w.conn.outages = [] →
      w.conn.db "task:queue" = (if ql = [] then none else some (.list ql)) →
      (∀ x ∈ ql, ∃ p c, Known tc w.conn.db x p c) →
      ∃ L, (ticks tc ql.length w).logs = w.logs ++ L ∧ poppedIDs L = ql.reverse ∧
        finishedIDs L = ql.reverse ∧
        (ticks tc ql.length w).conn.db "task:queue" = none ∧
        (∀ k, (∀ x ∈ ql, k ≠ "task:" ++ x) → k ≠ "task:queue" →
          (ticks tc ql.length w).conn.db k = w.conn.db k) ∧
        (∀ x p c, x ∈ ql → Known tc w.conn.db x p c →
          Settled tc (ticks tc ql.length w).conn.db x p c) := by
  induction ql using List.reverseRecOn with
  | nil =>
    intro w _ hq _
    refine ⟨[], by simp [ticks], rfl, rfl, ?_, ?_, ?_⟩
    · simpa [ticks] using hq
    · intro k _ _; rfl
    · intro x p c hx; cases hx
  | append_singleton q i ih =>
    intro w hout hq hknown
    have hq1 : w.conn.db "task:queue" = some (.list (q ++ [i])) := by
      rw [hq]; simp
    have hlen : (q ++ [i]).length = q.length + 1 := by simp
    obtain ⟨p0, c0, hk0⟩ := hknown i (by simp)
    have hki := known_key_ne_queue tc _ i p0 c0 _ hq1 hk0
    obtain ⟨hout1, hqueue1, ⟨dur, out, hlogs, hout2⟩, _, hframe⟩ :=
      tick_step tc hlaw w q i p0 c0 hout hq1 hk0
    have hkeep : ∀ x p c, Known tc w.conn.db x p c →
        Known tc (processNextTask tc w).conn.db x p c := by
      intro x p c hk
      by_cases hxi : x = i
      · subst hxi
        exact Or.inr (tick_step tc hlaw w q x p c hout hq1 hk).2.2.2.1
      · have hne : "task:" ++ x ≠ "task:" ++ i := fun e => hxi (task_key_inj _ _ e)
        have hxq := known_key_ne_queue tc _ x p c _ hq1 hk
        unfold Known Settled at hk ⊢
        rw [hframe _ hne hxq]
        exact hk
    have hknown1 : ∀ x ∈ q, ∃ p c, Known tc (processNextTask tc w).conn.db x p c := by
      intro x hx
      obtain ⟨p, c, hk⟩ := hknown x (by simp [hx])
      exact ⟨p, c, hkeep x p c hk⟩
    obtain ⟨L, hL, hpop, hfin, hq2, hframe2, hsettle⟩ :=
      ih (processNextTask tc w) hout1 hqueue1 hknown1
    rw [hlen]
    simp only [ticks]
    refine ⟨[LogEvent.processing i, LogEvent.working i dur, out] ++ L, ?_, ?_, ?_, hq2, ?_, ?_⟩
    · rw [hL, hlogs]; simp
    · rw [poppedIDs_append, hpop]
      have : poppedIDs [LogEvent.processing i, LogEvent.working i dur, out] = [i] := by
        rcases hout2 with h | h <;> simp [poppedIDs, h]
      rw [this]; simp
    · rw [finishedIDs_append, hfin]
      have : finishedIDs [LogEvent.processing i, LogEvent.working i dur, out] = [i] := by
        rcases hout2 with h | h <;> simp [finishedIDs, h]
      rw [this]; simp
    · intro k hk hkq
      have hk1 : ∀ x ∈ q, k ≠ "task:" ++ x := fun x hx => hk x (by simp [hx])
      rw [hframe2 k hk1 hkq]
      exact hframe k (hk i (by simp)) hkq
    · intro x p c hmem hk
      by_cases hxq : x ∈ q
      · exact hsettle x p c hxq (hkeep x p c hk)
      · have hk1 := hkeep x p c hk
        have hxk := known_key_ne_queue tc _ x p c _ hq1 hk
        have hsame : (ticks tc q.length (processNextTask tc w)).conn.db ("task:" ++ x)
            = (processNextTask tc w).conn.db ("task:" ++ x) := by
          apply hframe2 _ _ hxk
          intro y hy e
          exact hxq (by rw [task_key_inj _ _ e]; exact hy)
        have hxi : x = i := by
          rcases List.mem_append.mp hmem with h | h
          · exact absurd h hxq
          · simpa using h
        subst hxi
        have hs := (tick_step tc hlaw w q x p c hout hq1 hk).2.2.2.1
        unfold Settled at hs ⊢
        rw [hsame]
        exact hs

end Worker

namespace Api

/-- A creation answered with 201 touches the record of its own ID and the
queue only. -/
theorem create_frame (tc : TimeCodec) (uuid : String) (now : Nat) (s : State) (body : Doc)
    (hok : (createTaskHandler tc uuid now s body).1.code = 201) (k : String)
    (hk : k ≠ "task:" ++ uuid) (hkq : k ≠ "task:queue") :
    (createTaskHandler tc uuid now s body).2.conn.db k = s.conn.db k := by
  obtain ⟨req, _, _, _, _, hdb, _, _⟩ := create_created tc uuid now s body hok
  rw [hdb, setKey_other _ _ _ _ hkq, setKey_other _ _ _ _ hk]

/-- A creation answered with 201 leaves the pending record of its task. -/
theorem create_record (tc : TimeCodec) (uuid : String) (now : Nat) (s : State) (body : Doc)
    (p : String) (hbody : CreateTaskRequest.decode body = some { Payload := p })
    (hok : (createTaskHandler tc uuid now s body).1.code = 201) :
    "task:" ++ uuid ≠ "task:queue" ∧
      (createTaskHandler tc uuid now s body).2.conn.db ("task:" ++ uuid)
        = some (.string (pendingRecord tc uuid p now)) := by
  obtain ⟨req, hreq, _, hk, _, hdb, _, _⟩ := create_created tc uuid now s body hok
  rw [hbody] at hreq
  injection hreq with hreq
  subst hreq
  refine ⟨hk, ?_⟩
  rw [hdb, setKey_other _ _ _ _ hk, setKey_same]
  rfl

theorem createAll_frame (tc : TimeCodec) (reqs : List (String × Nat × Doc)) :
    ∀ s : State, (∀ r ∈ (createAll tc s reqs).1, r.code = 201) →
      ∀ k, (∀ r ∈ reqs, k ≠ "task:" ++ r.1) → k ≠ "task:queue" →
        (createAll tc s reqs).2.conn.db k = s.conn.db k := by
  induction reqs with
  | nil => intro s _ k _ _; rfl
  | cons r rest ih =>
    intro s hok k hk hkq
    obtain ⟨uuid, now, body⟩ := r
    have hok1 : (createTaskHandler tc uuid now s body).1.code = 201 :=
      hok _ (by simp [createAll])
    have hrest : ∀ r ∈ (createAll tc (createTaskHandler tc uuid now s body).2 rest).1,
        r.code = 201 := fun r hr => hok r (by simp [createAll, hr])
    have h1 := ih _ hrest k (fun r hr => hk r (by simp [hr])) hkq
    have h2 := create_frame tc uuid now s body hok1 k
      (hk (uuid, now, body) (List.mem_cons_self _ _)) hkq
    simp only [createAll]
    rw [h1, h2]

/-- After creations all answered with 201, the last request made for an ID has
left its pending record. -/
theorem createAll_last (tc : TimeCodec) (pre : List (String × Nat × Doc)) :
    ∀ (s : State) (uuid : String) (now : Nat) (body : Doc) (post : List (String × Nat × Doc))
      (p : String),
      (∀ r ∈ (createAll tc s (pre ++ (uuid, now, body) :: post)).1, r.code = 201) →
      uuid ∉ post.map (fun r => r.1) →
      CreateTaskRequest.decode body = some { Payload := p } →
      "task:" ++ uuid ≠ "task:queue" ∧
        (createAll tc s (pre ++ (uuid, now, body) :: post)).2.conn.db ("task:" ++ uuid)
          = some (.string (pendingRecord tc uuid p now)) := by
  induction pre with
  | nil =>
    intro s uuid now body post p hok hnot hbody
    have hok1 : (createTaskHandler tc uuid now s body).1.code = 201 :=
      hok _ (by simp [createAll])
    have hrest : ∀ r ∈ (createAll tc (createTaskHandler tc uuid now s body).2 post).1,
        r.code = 201 := fun r hr => hok r (by simp [createAll, hr])
    obtain ⟨hk, hrec⟩ := create_record tc uuid now s body p hbody hok1
    refine ⟨hk, ?_⟩
    have hfr := createAll_frame tc post _ hrest ("task:" ++ uuid)
      (fun r hr e => hnot (by
        rw [task_key_inj _ _ e]
        exact List.mem_map_of_mem (fun r => r.1) hr)) hk
    simp only [List.nil_append, createAll]
    rw [hfr, hrec]
  | cons r pre ih =>
    intro s uuid now body post p hok hnot hbody
    obtain ⟨uuid0, now0, body0⟩ := r
    have hrest : ∀ r ∈ (createAll tc (createTaskHandler tc uuid0 now0 s body0).2
        (pre ++ (uuid, now, body) :: post)).1, r.code = 201 :=
      fun r hr => hok r (by simp only [List.cons_append, createAll]; simp [hr])
    have h := ih _ uuid now body post p hrest hnot hbody
    simpa only [List.cons_append, createAll] using h

/-- After creations all answered with 201, every ID created names a known
record. -/
theorem createAll_known (tc : TimeCodec) (reqs : List (String × Nat × Doc)) :
    ∀ s : State, (∀ r ∈ (createAll tc s reqs).1, r.code = 201) →
      ∀ x ∈ reqs.map (fun r => r.1),
        ∃ p c, Worker.Known tc (createAll tc s reqs).2.conn.db x p c := by
  induction reqs with
  | nil => intro s _ x hx; cases hx
  | cons r rest ih =>
    intro s hok x hx
    obtain ⟨uuid, now, body⟩ := r
    have hok1 : (createTaskHandler tc uuid now s body).1.code = 201 :=
      hok _ (by simp [createAll])
    have hrest : ∀ r ∈ (createAll tc (createTaskHandler tc uuid now s body).2 rest).1,
        r.code = 201 := fun r hr => hok r (by simp [createAll, hr])
    by_cases hin : x ∈ rest.map (fun r => r.1)
    · obtain ⟨p, c, hk⟩ := ih _ hrest x hin
      exact ⟨p, c, by simpa only [createAll] using hk⟩
    · have hxu : x = uuid := by
        rcases List.mem_cons.mp hx with h | h
        · exact h
        · exact absurd h hin
      subst hxu
      obtain ⟨req, hreq, _, _, _, _, _, _⟩ := create_created tc x now s body hok1
      obtain ⟨p⟩ := req
      have h := createAll_last tc [] s x now body rest p
        (by simpa only [List.nil_append] using hok) hin hreq
      exact ⟨p, now, Or.inl (by simpa only [List.nil_append] using h.2)⟩

end Api

/-! ## The claims -/

namespace Worker

/-- C2: the duration `processTaskPayload` computes and sleeps for is exactly
`2 + (L mod 5)` seconds, `L` being the byte length of the payload; it lies
between 2 and 6 seconds, and is 2 seconds for the payload `hello`. -/
theorem C2_processing_duration (w : State) (task : Task) :
    (processTaskPayload w task).2.clock
        = w.clock + (2 + task.Payload.utf8ByteSize % 5) * second ∧
      (processTaskPayload w task).2.logs
        = w.logs ++ [LogEvent.working task.ID ((2 + task.Payload.utf8ByteSize % 5) * second)] ∧
      2 * second ≤ (processTaskPayload w task).2.clock - w.clock ∧
      (processTaskPayload w task).2.clock - w.clock ≤ 6 * second ∧
      (processTaskPayload w { task with Payload := "hello" }).2.clock = w.clock + 2 * second := by
  have h5 : task.Payload.utf8ByteSize % 5 < 5 := Nat.mod_lt _ (by decide)
  have hh : "hello".utf8ByteSize = 5 := by decide
  refine ⟨?_, ?_, ?_, ?_, ?_⟩
  · unfold processTaskPayload processingTime; split <;> rfl
  · unfold processTaskPayload processingTime; split <;> rfl
  · have : (processTaskPayload w task).2.clock
        = w.clock + (2 + task.Payload.utf8ByteSize % 5) * second := by
      unfold processTaskPayload processingTime; split <;> rfl
    rw [this]; simp only [second]; omega
  · have : (processTaskPayload w task).2.clock
        = w.clock + (2 + task.Payload.utf8ByteSize % 5) * second := by
      unfold processTaskPayload processingTime; split <;> rfl
    rw [this]; simp only [second]; omega
  · unfold processTaskPayload processingTime; simp only [hh]; rfl

/-- C1 (amended): when a tick pops an ID, loads a record that decodes to a task
with a payload of byte length `L`, and its last `Set` is served, the record it
leaves under `task:<id of the task>` is that task with status `failed` if
`L mod 10 = 0` and `completed` otherwise. -/
theorem C1_terminal_status_amended (tc : TimeCodec) (w : State) (q : List String)
    (i : String) (d : Doc) (task : Task)
    (hpop : served w.conn.outages 1 = true) (hget : served w.conn.outages 2 = true)
    (hset : served w.conn.outages 4 = true)
    (hq : w.conn.db "task:queue" = some (.list (q ++ [i])))
    (hd : w.conn.db ("task:" ++ i) = some (.string d))
    (hu : Task.unmarshal tc d = some task) :
    (processNextTask tc w).conn.db ("task:" ++ task.ID) = some (.string (.object
        [("id", .str task.ID), ("payload", .str task.Payload),
         ("status", .str (if task.Payload.utf8ByteSize % 10 = 0 then "failed" else "completed")),
         ("created_at", .str (tc.format task.CreatedAt)),
         ("updated_at", .str (tc.format
            (w.clock + (2 + task.Payload.utf8ByteSize % 5) * second)))])) ∧
      (storedStatus (processNextTask tc w).conn.db ("task:" ++ task.ID) = some "failed"
        ↔ task.Payload.utf8ByteSize % 10 = 0) ∧
      (storedStatus (processNextTask tc w).conn.db ("task:" ++ task.ID) = some "completed"
        ↔ task.Payload.utf8ByteSize % 10 ≠ 0) := by
  have h := tick_stored tc w q i d task hpop hget hset hq hd hu
  have hs : storedStatus (processNextTask tc w).conn.db ("task:" ++ task.ID)
      = some (terminalStatus task) := by
    unfold storedStatus
    rw [h]
    exact status_marshal tc _
  refine ⟨?_, ?_, ?_⟩
  · rw [h]; rfl
  · rw [hs]
    by_cases hf : task.Payload.utf8ByteSize % 10 = 0 <;> simp [terminalStatus, hf]
  · rw [hs]
    by_cases hf : task.Payload.utf8ByteSize % 10 = 0 <;> simp [terminalStatus, hf]

/-- Witness for C1 (amended): payload `hello` (length 5) ends completed and
payload `0123456789` (length 10) ends failed. -/
theorem C1_terminal_status_amended_witness :
    storedStatus (processNextTask digitCodec (oneTask "hello")).conn.db ("task:" ++ "a")
        = some "completed" ∧
      storedStatus (processNextTask digitCodec (oneTask "0123456789")).conn.db ("task:" ++ "a")
        = some "failed" :=
  ⟨(C1_terminal_status_amended digitCodec (oneTask "hello") [] "a" (pendingDoc "a" "hello")
      { ID := "a", Payload := "hello", Status := "pending", CreatedAt := 3, UpdatedAt := 0 }
      (by decide) (by decide) (by decide) (by decide) (by decide) (by decide)).2.2.mpr
      (by decide),
   (C1_terminal_status_amended digitCodec (oneTask "0123456789") [] "a"
      (pendingDoc "a" "0123456789")
      { ID := "a", Payload := "0123456789", Status := "pending", CreatedAt := 3, UpdatedAt := 0 }
      (by decide) (by decide) (by decide) (by decide) (by decide) (by decide)).2.1.mpr
      (by decide)⟩

/-- C1 (counterexample): the tick pops `a` and loads its record, whose payload
`hello` has length 5; the store fails the last `Set`, whose reply `updateTask`
discards; the tick logs and counts the task as completed while the record is
left with status `processing`. -/
theorem C1_terminal_status_counterexample :
    writeDown.conn.db "task:queue" = some (.list ["a"]) ∧
      writeDown.conn.db "task:a" = some (.string (pendingDoc "a" "hello")) ∧
      Task.unmarshal digitCodec (pendingDoc "a" "hello")
        = some { ID := "a", Payload := "hello", Status := "pending", CreatedAt := 3,
                 UpdatedAt := 0 } ∧
      "hello".utf8ByteSize % 10 ≠ 0 ∧
      (processNextTask digitCodec writeDown).logs
        = [LogEvent.processing "a", LogEvent.working "a" (2 * second),
           LogEvent.taskCompleted "a"] ∧
      (processNextTask digitCodec writeDown).tasksProcessed = 1 ∧
      storedStatus (processNextTask digitCodec writeDown).conn.db "task:a"
        = some "processing" := by
  decide

/-- C7: when the store is reachable and the ID `i` at the tail of the queue
has no record, or one that does not decode, a tick removes exactly `i` from the
queue, adds one to the failure counter, issues no `Set` and no `LPush` (only
`LLen`, `RPop` and `Get`), leaves every key but the queue as it was, and the
tick after it pops the entry that followed `i`. -/
theorem C7_dangling_entry (tc : TimeCodec) (w : State) (q : List String) (i : String)
    (hout : w.conn.outages = [])
    (hq : w.conn.db "task:queue" = some (.list (q ++ [i])))
    (hd : ∀ d, w.conn.db ("task:" ++ i) = some (.string d) → Task.unmarshal tc d = none) :
    queueOf (processNextTask tc w).conn.db = q ∧
      (processNextTask tc w).tasksFailed = w.tasksFailed + 1 ∧
      (processNextTask tc w).tasksProcessed = w.tasksProcessed ∧
      (processNextTask tc w).conn.sent = w.conn.sent ++
        [Cmd.llen "task:queue", Cmd.rpop "task:queue", Cmd.get ("task:" ++ i)] ∧
      (∀ k, k ≠ "task:queue" → (processNextTask tc w).conn.db k = w.conn.db k) ∧
      (∀ q1 j, q = q1 ++ [j] →
        ∃ rest, (processNextTask tc (processNextTask tc w)).logs
          = (processNextTask tc w).logs ++ LogEvent.processing j :: rest) := by
  obtain ⟨ev, he⟩ := tick_dropped tc w q i hout hq hd
  rw [he]
  refine ⟨queueOf_popped _ _, rfl, rfl, rfl, ?_, ?_⟩
  · intro k hk
    simp only [droppedState, popped]
    exact setKey_other _ _ _ _ hk
  · intro q1 j hq1
    have hne : q ≠ [] := by rw [hq1]; simp
    have hq2 : (droppedState w q i ev).conn.db "task:queue" = some (.list (q1 ++ [j])) := by
      simp only [droppedState, popped]
      rw [setKey_same]
      simp [hne, hq1]
    obtain ⟨rest, _, h1, _, _, _⟩ := tick_pops tc (droppedState w q i ev) q1 j rfl hq2
    exact ⟨rest, h1⟩

/-- Witness for C7: the queue holds `b` then `a`, and `a` has no record. -/
theorem C7_dangling_entry_witness :
    queueOf (processNextTask digitCodec dangling).conn.db = ["b"] ∧
      (processNextTask digitCodec dangling).tasksFailed = dangling.tasksFailed + 1 ∧
      (processNextTask digitCodec dangling).tasksProcessed = dangling.tasksProcessed ∧
      (processNextTask digitCodec dangling).conn.sent = dangling.conn.sent ++
        [Cmd.llen "task:queue", Cmd.rpop "task:queue", Cmd.get ("task:" ++ "a")] ∧
      (∀ k, k ≠ "task:queue" →
        (processNextTask digitCodec dangling).conn.db k = dangling.conn.db k) ∧
      (∀ q1 j, ["b"] = q1 ++ [j] →
        ∃ rest, (processNextTask digitCodec (processNextTask digitCodec dangling)).logs
          = (processNextTask digitCodec dangling).logs ++ LogEvent.processing j :: rest) :=
  C7_dangling_entry digitCodec dangling ["b"] "a" rfl (by decide)
    (fun d h => Option.noConfusion
      ((show dangling.conn.db ("task:" ++ "a") = none by decide).symm.trans h))

/-- C10 (amended): when the store is reachable and a tick pops an ID `i` whose
record decodes to a task whose own `id` is `i`, the tick issues exactly two
`Set` commands, both on `task:i`, writing the loaded task with only `status`
and `updated_at` replaced; `id`, `payload` and `created_at` are carried over,
and every key other than `task:i` and the queue is left as it was. -/
theorem C10_frame_amended (tc : TimeCodec) (w : State) (q : List String) (i : String)
    (d : Doc) (task : Task) (hout : w.conn.outages = [])
    (hq : w.conn.db "task:queue" = some (.list (q ++ [i])))
    (hd : w.conn.db ("task:" ++ i) = some (.string d))
    (hu : Task.unmarshal tc d = some task) (hid : task.ID = i) :
    (processNextTask tc w).conn.sent = w.conn.sent ++
        [Cmd.llen "task:queue", Cmd.rpop "task:queue", Cmd.get ("task:" ++ i),
          Cmd.set ("task:" ++ i)
            (Task.marshal tc { task with Status := "processing", UpdatedAt := w.clock }),
          Cmd.set ("task:" ++ i)
            (Task.marshal tc { task with Status := terminalStatus task,
                                         UpdatedAt := w.clock + processingTime task })] ∧
      (processNextTask tc w).conn.db ("task:" ++ i) = some (.string
        (Task.marshal tc { task with Status := terminalStatus task,
                                     UpdatedAt := w.clock + processingTime task })) ∧
      (∀ k, k ≠ "task:" ++ i → k ≠ "task:queue" →
        (processNextTask tc w).conn.db k = w.conn.db k) ∧
      queueOf (processNextTask tc w).conn.db = q := by
  have hne := task_key_ne_queue i d _ _ hq hd
  rw [tick_processed tc w q i d task hout hq hd hu]
  subst hid
  refine ⟨rfl, ?_, ?_, ?_⟩
  · simp [processedState, setKey_same]
  · intro k hk hkq
    simp only [processedState, popped]
    rw [setKey_other _ _ _ _ hk, setKey_other _ _ _ _ hk, setKey_other _ _ _ _ hkq]
  · have h1 : ("task:queue" : String) ≠ "task:" ++ task.ID := fun h => hne h.symm
    simp only [processedState, queueOf]
    rw [setKey_other _ _ _ _ h1, setKey_other _ _ _ _ h1]
    exact queueOf_popped _ _

/-- Witness for C10 (amended): the record of `a` names itself `a`. -/
theorem C10_frame_amended_witness :
    (processNextTask digitCodec (oneTask "hello")).conn.db ("task:" ++ "a") = some (.string
        (Task.marshal digitCodec
          { ID := "a", Payload := "hello", Status := "completed", CreatedAt := 3,
            UpdatedAt := 2000000007 })) ∧
      (∀ k, k ≠ "task:" ++ "a" → k ≠ "task:queue" →
        (processNextTask digitCodec (oneTask "hello")).conn.db k = (oneTask "hello").conn.db k) :=
  have h := C10_frame_amended digitCodec (oneTask "hello") [] "a" (pendingDoc "a" "hello")
    { ID := "a", Payload := "hello", Status := "pending", CreatedAt := 3, UpdatedAt := 0 }
    rfl (by decide) (by decide) (by decide) rfl
  ⟨h.2.1, h.2.2.1⟩

/-- C10 (counterexample): the record stored under `task:a` names itself `b`;
the tick that pops `a` writes to `task:b`, a key other than the one it read,
and leaves `task:a` as it was. -/
theorem C10_frame_counterexample :
    misnamed.conn.outages = [] ∧
      misnamed.conn.db "task:queue" = some (.list ["a"]) ∧
      (misnamed.conn.db "task:a").isSome = true ∧
      Task.unmarshal digitCodec (pendingDoc "b" "hello")
        = some { ID := "b", Payload := "hello", Status := "pending", CreatedAt := 3,
                 UpdatedAt := 0 } ∧
      misnamed.conn.db "task:b" = none ∧
      (processNextTask digitCodec misnamed).conn.db "task:b" = some (.string
        (Task.marshal digitCodec
          { ID := "b", Payload := "hello", Status := "completed", CreatedAt := 3,
            UpdatedAt := 2000000007 })) ∧
      (processNextTask digitCodec misnamed).conn.db "task:a" = misnamed.conn.db "task:a" ∧
      (processNextTask digitCodec misnamed).conn.sent =
        [Cmd.llen "task:queue", Cmd.rpop "task:queue", Cmd.get "task:a",
          Cmd.set "task:b" (Task.marshal digitCodec
            { ID := "b", Payload := "hello", Status := "processing", CreatedAt := 3,
              UpdatedAt := 7 }),
          Cmd.set "task:b" (Task.marshal digitCodec
            { ID := "b", Payload := "hello", Status := "completed", CreatedAt := 3,
              UpdatedAt := 2000000007 })] := by
  decide

/-- C6 (amended): when the store is reachable and the tick is not about to
load a task whose record (under the key the tick writes to) is already
completed or failed, no command the tick issues moves a stored status backward
in the order pending, processing, then completed or failed. -/
theorem C6_status_forward_amended (tc : TimeCodec) (w : State) (hout : w.conn.outages = [])
    (hfresh : ¬ ReloadsTerminal tc w) :
    backwardWrites w.conn.db (issuedBy tc w) = [] := by
  unfold issuedBy
  by_cases hq : ∃ q i, w.conn.db "task:queue" = some (.list (q ++ [i]))
  · obtain ⟨q, i, hq⟩ := hq
    by_cases hd : ∃ d task, w.conn.db ("task:" ++ i) = some (.string d) ∧
        Task.unmarshal tc d = some task
    · obtain ⟨d, task, hd, hu⟩ := hd
      rw [tick_processed tc w q i d task hout hq hd hu]
      have hsent : (processedState tc w q i task).conn.sent = w.conn.sent ++
          [Cmd.llen "task:queue", Cmd.rpop "task:queue", Cmd.get ("task:" ++ i),
            Cmd.set ("task:" ++ task.ID)
              (Task.marshal tc { task with Status := "processing", UpdatedAt := w.clock }),
            Cmd.set ("task:" ++ task.ID)
              (Task.marshal tc { task with Status := terminalStatus task,
                                           UpdatedAt := w.clock + processingTime task })] := rfl
      rw [hsent, List.drop_left]
      have hold : ∀ s, storedStatus (popped w.conn.db q) ("task:" ++ task.ID) = some s →
          s ≠ "completed" ∧ s ≠ "failed" := by
        intro s hs
        by_cases hk : "task:" ++ task.ID = "task:queue"
        · exfalso
          rw [hk] at hs
          unfold storedStatus popped at hs
          rw [setKey_same] at hs
          by_cases hq0 : q = [] <;> simp [hq0] at hs
        · unfold popped at hs
          unfold storedStatus at hs
          rw [setKey_other _ _ _ _ hk] at hs
          constructor
          · intro hc
            exact hfresh ⟨q, i, d, task, s, hq, hd, hu, hs, Or.inl hc⟩
          · intro hc
            exact hfresh ⟨q, i, d, task, s, hq, hd, hu, hs, Or.inr hc⟩
      have h1 : writesBackward (popped w.conn.db q) (Cmd.set ("task:" ++ task.ID)
          (Task.marshal tc { task with Status := "processing", UpdatedAt := w.clock }))
            = false := by
        unfold writesBackward
        simp only [status_marshal]
        cases hs : storedStatus (popped w.conn.db q) ("task:" ++ task.ID) with
        | none => rfl
        | some s => exact movesBackward_processing s (hold s hs).1 (hold s hs).2
      have h2 : writesBackward (setKey (popped w.conn.db q) ("task:" ++ task.ID)
          (some (.string (Task.marshal tc
            { task with Status := "processing", UpdatedAt := w.clock }))))
          (Cmd.set ("task:" ++ task.ID)
            (Task.marshal tc { task with Status := terminalStatus task,
                                         UpdatedAt := w.clock + processingTime task }))
            = false := by
        unfold writesBackward
        simp only [status_marshal, storedStatus_setKey]
        exact movesBackward_terminal task
      have hl : ∀ db k, writesBackward db (Cmd.llen k) = false := fun _ _ => rfl
      have hr : ∀ db k, writesBackward db (Cmd.rpop k) = false := fun _ _ => rfl
      have hg : ∀ db k, writesBackward db (Cmd.get k) = false := fun _ _ => rfl
      simp [backwardWrites, hl, hr, hg, effect_llen, effect_get, effect_set,
        effect_rpop _ q i hq, h1, h2]
    · have hd1 : ∀ d, w.conn.db ("task:" ++ i) = some (.string d) →
          Task.unmarshal tc d = none := by
        intro d hd2
        cases hu : Task.unmarshal tc d with
        | none => rfl
        | some task => exact absurd ⟨d, task, hd2, hu⟩ hd
      obtain ⟨ev, he⟩ := tick_dropped tc w q i hout hq hd1
      rw [he]
      have hsent : (droppedState w q i ev).conn.sent = w.conn.sent ++
          [Cmd.llen "task:queue", Cmd.rpop "task:queue", Cmd.get ("task:" ++ i)] := rfl
      rw [hsent, List.drop_left]
      simp [backwardWrites, writesBackward]
  · have hq1 : ∀ q i, w.conn.db "task:queue" ≠ some (.list (q ++ [i])) :=
      fun q i h => hq ⟨q, i, h⟩
    rw [tick_no_pop tc w hout hq1, List.drop_left]
    simp [backwardWrites, writesBackward]

/-- Witness for C6 (amended): the record of `a` is pending. -/
theorem C6_status_forward_amended_witness :
    backwardWrites (oneTask "hello").conn.db (issuedBy digitCodec (oneTask "hello")) = [] :=
  C6_status_forward_amended digitCodec (oneTask "hello") rfl (by
    rintro ⟨q, i, d, task, s, hq, hd, hu, hs, hc⟩
    have hq1 : q ++ [i] = ["a"] := by
      have h0 : (oneTask "hello").conn.db "task:queue" = some (.list ["a"]) := by decide
      rw [h0] at hq
      injection hq with hq
      injection hq with hq
      exact hq.symm
    have hi : i = "a" := by
      have := congrArg List.getLast? hq1
      simpa using this
    subst hi
    have hd0 : (oneTask "hello").conn.db ("task:" ++ "a")
        = some (.string (pendingDoc "a" "hello")) := by decide
    rw [hd0] at hd
    injection hd with hd
    injection hd with hd
    subst hd
    have hu0 : Task.unmarshal digitCodec (pendingDoc "a" "hello")
        = some { ID := "a", Payload := "hello", Status := "pending", CreatedAt := 3,
                 UpdatedAt := 0 } := by decide
    rw [hu0] at hu
    injection hu with hu
    subst hu
    have hs0 : storedStatus (oneTask "hello").conn.db ("task:" ++ "a") = some "pending" := by
      decide
    rw [hs0] at hs
    injection hs with hs
    subst hs
    rcases hc with hc | hc <;> exact absurd hc (by decide))

/-- C6 (counterexample): the record of `a` is already completed and `a` is at
the tail of the queue; the tick rewrites the record with status `processing`. -/
theorem C6_status_forward_counterexample :
    finished.conn.outages = [] ∧
      storedStatus finished.conn.db "task:a" = some "completed" ∧
      backwardWrites finished.conn.db (issuedBy digitCodec finished)
        = [Cmd.set "task:a" (Task.marshal digitCodec
            { ID := "a", Payload := "hello", Status := "processing", CreatedAt := 3,
              UpdatedAt := 7 })] := by
  decide

end Worker

namespace Api

/-- C3: a creation request whose body does not decode, or decodes to an empty
payload (the payload member is absent, `null` or the empty string), is answered
with 400 and leaves the process state, store and queue included, exactly as it
was: no command is issued. -/
theorem C3_empty_payload_rejected (tc : TimeCodec) (uuid : String) (now : Nat) (s : State)
    (body : Doc) (h : ∀ req, CreateTaskRequest.decode body = some req → req.Payload = "") :
    (createTaskHandler tc uuid now s body).1.code = 400 ∧
      (createTaskHandler tc uuid now s body).2 = s := by
  unfold createTaskHandler
  cases hreq : CreateTaskRequest.decode body with
  | none => exact ⟨rfl, rfl⟩
  | some req =>
    have hp := h req hreq
    simp [hp]

/-- Witness for C3: the body `{}` and the body with an empty payload. -/
theorem C3_empty_payload_rejected_witness :
    ((createTaskHandler digitCodec "a" 3 fresh (.object [])).1.code = 400 ∧
      (createTaskHandler digitCodec "a" 3 fresh (.object [])).2 = fresh) ∧
    ((createTaskHandler digitCodec "a" 3 fresh (bodyOf "")).1.code = 400 ∧
      (createTaskHandler digitCodec "a" 3 fresh (bodyOf "")).2 = fresh) :=
  ⟨C3_empty_payload_rejected digitCodec "a" 3 fresh (.object [])
      (fun req hreq => by
        have h0 : CreateTaskRequest.decode (.object []) = some { Payload := "" } := by decide
        rw [h0] at hreq
        injection hreq with hreq
        rw [← hreq]),
   C3_empty_payload_rejected digitCodec "a" 3 fresh (bodyOf "")
      (fun req hreq => by
        have h0 : CreateTaskRequest.decode (bodyOf "") = some { Payload := "" } := by decide
        rw [h0] at hreq
        injection hreq with hreq
        rw [← hreq])⟩

/-- C4: when a creation request with payload `p` is answered with 201, the
answer names the new ID and status `pending`, `p` is not empty, and a status
query for that ID served next by a reachable store is answered with 200 and the
task with that ID, status `pending` and payload `p`; marshalling a task and
unmarshalling it gives the task back. -/
theorem C4_create_then_get (tc : TimeCodec) (uuid : String) (now : Nat) (s : State)
    (body : Doc) (p : String) (hlaw : tc.Lawful)
    (hbody : CreateTaskRequest.decode body = some { Payload := p })
    (hok : (createTaskHandler tc uuid now s body).1.code = 201)
    (hup : (createTaskHandler tc uuid now s body).2.conn.outages.head? ≠ some true) :
    p ≠ "" ∧
      (createTaskHandler tc uuid now s body).1.body
        = .created { TaskID := uuid, Status := "pending" } ∧
      (getTaskHandler tc (createTaskHandler tc uuid now s body).2 uuid).1
        = { code := 200, body := Body.status
              (TaskStatusResponse.mk { ID := uuid, Payload := p, Status := "pending", CreatedAt := now }) } ∧
      (∀ t : Task, Task.unmarshal tc (Task.marshal tc t) = some t) := by
  obtain ⟨req, hreq, hp, hk, hresp, hdb, _, _⟩ := create_created tc uuid now s body hok
  rw [hbody] at hreq
  injection hreq with hreq
  subst hreq
  have hrec : (createTaskHandler tc uuid now s body).2.conn.db ("task:" ++ uuid)
      = some (.string (Task.marshal tc
          { ID := uuid, Payload := p, Status := "pending", CreatedAt := now })) := by
    rw [hdb, setKey_other _ _ _ _ hk, setKey_same]
  refine ⟨hp, by rw [hresp], ?_, fun t => unmarshal_marshal tc t (hlaw _)⟩
  unfold getTaskHandler
  rw [Get_found _ _ _ hup hrec]
  simp only [unmarshal_marshal tc
    { ID := uuid, Payload := p, Status := "pending", CreatedAt := now } (hlaw now)]

/-- Witness for C4: task `a` with payload `hello` created on an empty store. -/
theorem C4_create_then_get_witness :
    "hello" ≠ "" ∧
      (createTaskHandler digitCodec "a" 3 fresh (bodyOf "hello")).1.body
        = .created { TaskID := "a", Status := "pending" } ∧
      (getTaskHandler digitCodec (createTaskHandler digitCodec "a" 3 fresh (bodyOf "hello")).2
          "a").1
        = { code := 200, body := Body.status
              (TaskStatusResponse.mk { ID := "a", Payload := "hello", Status := "pending", CreatedAt := 3 }) } ∧
      (∀ t : Task, Task.unmarshal digitCodec (Task.marshal digitCodec t) = some t) :=
  C4_create_then_get digitCodec "a" 3 fresh (bodyOf "hello") "hello" digitCodec_lawful
    (by decide) (by decide) (by decide)

/-- C5 (the code at the failing input): the API creates task `a`, the worker
runs one tick and stamps `updated_at`; the record in the store carries
`updated_at`, while the task the status query answers with has the members
`id`, `payload`, `status` and `created_at` only. -/
theorem C5_status_query_drops_updated_at :
    afterTick.db "task:a" = some (.string (Worker.Task.marshal digitCodec
        { ID := "a", Payload := "hello", Status := "completed", CreatedAt := 3,
          UpdatedAt := 2000000007 })) ∧
      (Worker.Task.marshal digitCodec
        { ID := "a", Payload := "hello", Status := "completed", CreatedAt := 3,
          UpdatedAt := 2000000007 }).field? "updated_at"
        = some (.str (digitCodec.format 2000000007)) ∧
      (getTaskHandler digitCodec { conn := afterTick, tasksCreated := 1 } "a").1
        = { code := 200, body := Body.status
              (TaskStatusResponse.mk { ID := "a", Payload := "hello", Status := "completed", CreatedAt := 3 }) } ∧
      (TaskStatusResponse.taskDoc digitCodec
        { Task := { ID := "a", Payload := "hello", Status := "completed", CreatedAt := 3 } })
        = .object [("id", .str "a"), ("payload", .str "hello"), ("status", .str "completed"),
            ("created_at", .str (digitCodec.format 3))] ∧
      (TaskStatusResponse.taskDoc digitCodec
        { Task := { ID := "a", Payload := "hello", Status := "completed", CreatedAt := 3 } }).field?
          "updated_at" = none := by
  decide

/-- C9: for a creation request with a non-empty payload the handler issues
`Set task:<id>` first and `LPush task:queue <id>` only after it; when the `Set`
fails the answer is 500, the key space (queue included) is unchanged and no
`LPush` is issued; when the `Set` succeeds and the `LPush` fails the answer is
500 and the record is in the store under `task:<id>`. -/
theorem C9_write_ordering (tc : TimeCodec) (uuid : String) (now : Nat) (s : State)
    (body : Doc) (req : CreateTaskRequest)
    (hbody : CreateTaskRequest.decode body = some req) (hp : req.Payload ≠ "") :
    ((createTaskHandler tc uuid now s body).2.conn.sent = s.conn.sent ++
        [Cmd.set ("task:" ++ uuid) (Task.marshal tc
          { ID := uuid, Payload := req.Payload, Status := "pending", CreatedAt := now })] ∨
      (createTaskHandler tc uuid now s body).2.conn.sent = s.conn.sent ++
        [Cmd.set ("task:" ++ uuid) (Task.marshal tc
          { ID := uuid, Payload := req.Payload, Status := "pending", CreatedAt := now }),
         Cmd.lpush "task:queue" uuid]) ∧
    (∀ e c1, s.conn.Set ("task:" ++ uuid) (Task.marshal tc
          { ID := uuid, Payload := req.Payload, Status := "pending", CreatedAt := now })
        = (.error e, c1) →
      (createTaskHandler tc uuid now s body).1
          = { code := 500, body := .text "Failed to store task" } ∧
        (createTaskHandler tc uuid now s body).2.conn.db = s.conn.db ∧
        queueOf (createTaskHandler tc uuid now s body).2.conn.db = queueOf s.conn.db ∧
        (createTaskHandler tc uuid now s body).2.conn.sent = s.conn.sent ++
          [Cmd.set ("task:" ++ uuid) (Task.marshal tc
            { ID := uuid, Payload := req.Payload, Status := "pending", CreatedAt := now })]) ∧
    (∀ c1 e c2, s.conn.Set ("task:" ++ uuid) (Task.marshal tc
          { ID := uuid, Payload := req.Payload, Status := "pending", CreatedAt := now })
        = (.ok (), c1) →
      c1.LPush "task:queue" uuid = (.error e, c2) →
      (createTaskHandler tc uuid now s body).1
          = { code := 500, body := .text "Failed to enqueue task" } ∧
        (createTaskHandler tc uuid now s body).2.conn.db ("task:" ++ uuid)
          = some (.string (Task.marshal tc
            { ID := uuid, Payload := req.Payload, Status := "pending", CreatedAt := now }))) := by
  obtain ⟨c1, hs1, ho1, h1 | h1⟩ := Conn.Set_spec s.conn ("task:" ++ uuid)
    (Task.marshal tc { ID := uuid, Payload := req.Payload, Status := "pending",
                       CreatedAt := now })
  · obtain ⟨c2, hs2, ho2, h2 | h2⟩ := Conn.LPush_spec c1 uuid
    · refine ⟨Or.inr ?_, ?_, ?_⟩
      · simp [createTaskHandler, hbody, hp, h1.1, h2.1, hs2, hs1]
      · intro e c hset
        rw [h1.1] at hset
        cases hset
      · intro c e c3 hset hpush
        rw [h1.1] at hset
        injection hset with _ hc
        subst hc
        rw [h2.1] at hpush
        cases hpush
    · refine ⟨Or.inr ?_, ?_, ?_⟩
      · simp [createTaskHandler, hbody, hp, h1.1, h2.1, hs2, hs1]
      · intro e c hset
        rw [h1.1] at hset
        cases hset
      · intro c e c3 hset hpush
        rw [h1.1] at hset
        injection hset with _ hc
        subst hc
        simp only [createTaskHandler, hbody, hp, if_false, h1.1, h2.1]
        refine ⟨trivial, ?_⟩
        rw [h2.2, h1.2, setKey_same]
  · refine ⟨Or.inl ?_, ?_, ?_⟩
    · simp [createTaskHandler, hbody, hp, h1.1, hs1]
    · intro e c hset
      simp only [createTaskHandler, hbody, hp, if_false, h1.1]
      refine ⟨trivial, h1.2.1, by rw [h1.2.1], hs1⟩
    · intro c e c3 hset
      rw [h1.1] at hset
      cases hset

/-- Witness for C9: on a store whose first command fails nothing is written or
pushed; on a store whose second command fails the record is written. -/
theorem C9_write_ordering_witness :
    ((createTaskHandler digitCodec "a" 3 storeDown (bodyOf "hello")).1
        = { code := 500, body := .text "Failed to store task" } ∧
      (createTaskHandler digitCodec "a" 3 storeDown (bodyOf "hello")).2.conn.db
        = storeDown.conn.db) ∧
    ((createTaskHandler digitCodec "a" 3 pushDown (bodyOf "hello")).1
        = { code := 500, body := .text "Failed to enqueue task" } ∧
      (createTaskHandler digitCodec "a" 3 pushDown (bodyOf "hello")).2.conn.db ("task:" ++ "a")
        = some (.string (Task.marshal digitCodec
          { ID := "a", Payload := "hello", Status := "pending", CreatedAt := 3 }))) :=
  have h1 := (C9_write_ordering digitCodec "a" 3 storeDown (bodyOf "hello")
    { Payload := "hello" } (by decide) (by decide)).2.1 RedisErr.other
      { db := dbOf [], outages := [], sent := [Cmd.set ("task:" ++ "a") (Task.marshal digitCodec
          { ID := "a", Payload := "hello", Status := "pending", CreatedAt := 3 })] } rfl
  have h2 := (C9_write_ordering digitCodec "a" 3 pushDown (bodyOf "hello")
    { Payload := "hello" } (by decide) (by decide)).2.2
      { db := setKey (dbOf []) ("task:" ++ "a") (some (.string (Task.marshal digitCodec
          { ID := "a", Payload := "hello", Status := "pending", CreatedAt := 3 }))),
        outages := [true],
        sent := [Cmd.set ("task:" ++ "a") (Task.marshal digitCodec
          { ID := "a", Payload := "hello", Status := "pending", CreatedAt := 3 })] }
      RedisErr.other
      { db := setKey (dbOf []) ("task:" ++ "a") (some (.string (Task.marshal digitCodec
          { ID := "a", Payload := "hello", Status := "pending", CreatedAt := 3 }))),
        outages := [],
        sent := [Cmd.set ("task:" ++ "a") (Task.marshal digitCodec
          { ID := "a", Payload := "hello", Status := "pending", CreatedAt := 3 }),
          Cmd.lpush "task:queue" "a"] } rfl rfl
  ⟨⟨h1.1, h1.2.1⟩, h2⟩

end Api

/-- C8: starting from a reachable store without a queue, after creation
requests that are all answered with 201 the queue holds their IDs, newest
leftmost; as many ticks of the worker as there were requests then pop the IDs
in the order of creation and run each popped task to its outcome in that same
order, leaving the queue empty and, for each task, its record in the store
with the payload and creation time of its request and the status `failed` or
`completed` its payload length gives; no tick, in any state, pops more than one
ID.  (The record of an ID is that of the last request made for it.) -/
theorem C8_fifo (tc : TimeCodec) (s : Api.State) (reqs : List (String × Nat × Doc))
    (w : Worker.State) (hlaw : tc.Lawful) (hout : s.conn.outages = [])
    (hempty : s.conn.db "task:queue" = none)
    (hok : ∀ r ∈ (Api.createAll tc s reqs).1, r.code = 201)
    (hw : w.conn = (Api.createAll tc s reqs).2.conn) :
    queueOf w.conn.db = (reqs.map (fun r => r.1)).reverse ∧
      Worker.poppedIDs ((Worker.ticks tc reqs.length w).logs.drop w.logs.length)
        = reqs.map (fun r => r.1) ∧
      Worker.finishedIDs ((Worker.ticks tc reqs.length w).logs.drop w.logs.length)
        = reqs.map (fun r => r.1) ∧
      queueOf (Worker.ticks tc reqs.length w).conn.db = [] ∧
      (∀ pre uuid now body post p, reqs = pre ++ (uuid, now, body) :: post →
        uuid ∉ post.map (fun r => r.1) →
        Api.CreateTaskRequest.decode body = some { Payload := p } →
        ∃ u, (Worker.ticks tc reqs.length w).conn.db ("task:" ++ uuid)
          = some (.string (.object [("id", .str uuid), ("payload", .str p),
              ("status", .str (if p.utf8ByteSize % 10 = 0 then "failed" else "completed")),
              ("created_at", .str (tc.format now)), ("updated_at", .str (tc.format u))]))) ∧
      (∀ w1 : Worker.State,
        (Worker.poppedIDs
          ((Worker.processNextTask tc w1).logs.drop w1.logs.length)).length ≤ 1) := by
  have hinv0 : Worker.QueueInv tc s.conn.db [] := by
    constructor
    · rw [hempty]; rfl
    · intro x hx; cases hx
  obtain ⟨hinv, hout1⟩ := Api.inv_createAll tc reqs s [] hinv0 hout hok
  rw [List.append_nil, ← hw] at hinv
  rw [← hw] at hout1
  have hknown : ∀ x ∈ (reqs.map (fun r => r.1)).reverse,
      ∃ p c, Worker.Known tc w.conn.db x p c := by
    intro x hx
    rw [hw]
    exact Api.createAll_known tc reqs s hok x (List.mem_reverse.mp hx)
  obtain ⟨L, hL, hpop, hfin, hq, _, hsettle⟩ :=
    Worker.ticks_run tc hlaw _ w hout1 hinv.1 hknown
  rw [List.length_reverse, List.length_map] at hL hq hsettle
  refine ⟨queueOf_of_inv tc _ _ hinv, ?_, ?_, ?_, ?_, ?_⟩
  · rw [hL, List.drop_left, hpop, List.reverse_reverse]
  · rw [hL, List.drop_left, hfin, List.reverse_reverse]
  · unfold queueOf
    rw [hq]
  · intro pre uuid now body post p hsplit hnot hbody
    have hrec := (Api.createAll_last tc pre s uuid now body post p
      (by rw [← hsplit]; exact hok) hnot hbody).2
    rw [← hsplit, ← hw] at hrec
    have hmem : uuid ∈ (reqs.map (fun r => r.1)).reverse := by
      rw [List.mem_reverse, hsplit]
      simp
    exact hsettle uuid p now hmem (Or.inl hrec)
  · intro w1
    obtain ⟨L1, hL1, hlen⟩ := Worker.tick_log tc w1
    rw [hL1, List.drop_left]
    exact hlen

/-- Witness for C8: tasks `a` (payload `hello`) and `b` (payload `0123456789`)
created in that order on an empty store are popped and run in that order; `a`
ends completed and `b` ends failed. -/
theorem C8_fifo_witness :
    queueOf (Api.createAll digitCodec Api.fresh Api.twoRequests).2.conn.db = ["b", "a"] ∧
      Worker.poppedIDs ((Worker.ticks digitCodec 2
        (Worker.stateOf (Api.createAll digitCodec Api.fresh Api.twoRequests).2.conn)).logs.drop 0)
        = ["a", "b"] ∧
      Worker.finishedIDs ((Worker.ticks digitCodec 2
        (Worker.stateOf (Api.createAll digitCodec Api.fresh Api.twoRequests).2.conn)).logs.drop 0)
        = ["a", "b"] ∧
      (∃ u, (Worker.ticks digitCodec 2
          (Worker.stateOf (Api.createAll digitCodec Api.fresh Api.twoRequests).2.conn)).conn.db
            ("task:" ++ "a")
          = some (.string (.object [("id", .str "a"), ("payload", .str "hello"),
              ("status", .str "completed"), ("created_at", .str (digitCodec.format 3)),
              ("updated_at", .str (digitCodec.format u))]))) ∧
      (∃ u, (Worker.ticks digitCodec 2
          (Worker.stateOf (Api.createAll digitCodec Api.fresh Api.twoRequests).2.conn)).conn.db
            ("task:" ++ "b")
          = some (.string (.object [("id", .str "b"), ("payload", .str "0123456789"),
              ("status", .str "failed"), ("created_at", .str (digitCodec.format 4)),
              ("updated_at", .str (digitCodec.format u))]))) :=
  have h := C8_fifo digitCodec Api.fresh Api.twoRequests
    (Worker.stateOf (Api.createAll digitCodec Api.fresh Api.twoRequests).2.conn)
    digitCodec_lawful rfl (by decide) (by decide) rfl
  ⟨h.1, h.2.1, h.2.2.1,
   h.2.2.2.2.1 [] "a" 3 (Api.bodyOf "hello") [("b", 4, Api.bodyOf "0123456789")] "hello"
     rfl (by decide) (by decide),
   h.2.2.2.2.1 [("a", 3, Api.bodyOf "hello")] "b" 4 (Api.bodyOf "0123456789") [] "0123456789"
     rfl (by decide) (by decide)⟩
